import Mathlib

/-!
Verification of the qtile IPC framing codec (libqtile/ipc.py) and the
interactive REPL session manager (libqtile/interactive/repl.py).

The Python source is shallowly embedded: JSON payload values are the
inductive JVal (with Python-side values PVal that may also contain sets),
byte streams are lists of naturals, and the stateful REPL manager is
modelled as explicit state passing with the wall clock and uuid minting
supplied as arguments.
-/

namespace Qtile

/-! ## JSON value model

Values representable by the stdlib json module: objects keep their key
insertion order, numbers are modelled as integers.  PVal additionally has
the mathematical set accepted by the encoder hook _json_encoder, carrying
its iteration order. -/

mutual

inductive JVal : Type where
  | null : JVal
  | bool : Bool → JVal
  | num : Int → JVal
  | str : List Char → JVal
  | arr : JArr → JVal
  | obj : JObj → JVal

inductive JArr : Type where
  | nil : JArr
  | cons : JVal → JArr → JArr

inductive JObj : Type where
  | nil : JObj
  | cons : List Char → JVal → JObj → JObj

end

mutual

inductive PVal : Type where
  | none : PVal
  | bool : Bool → PVal
  | num : Int → PVal
  | str : List Char → PVal
  | list : PArr → PVal
  | dict : PObj → PVal
  | set : PArr → PVal

inductive PArr : Type where
  | nil : PArr
  | cons : PVal → PArr → PArr

inductive PObj : Type where
  | nil : PObj
  | cons : List Char → PVal → PObj → PObj

end

/- Normalization performed by json.dumps with the default hook
_json_encoder: every set becomes the array of its elements (in iteration
order), JSON-native values are unchanged. -/
mutual

def pyToJson : PVal → JVal
  | .none => .null
  | .bool b => .bool b
  | .num i => .num i
  | .str s => .str s
  | .list a => .arr (pyArr a)
  | .dict o => .obj (pyObj o)
  | .set a => .arr (pyArr a)

def pyArr : PArr → JArr
  | .nil => .nil
  | .cons v t => .cons (pyToJson v) (pyArr t)

def pyObj : PObj → JObj
  | .nil => .nil
  | .cons k v t => .cons k (pyToJson v) (pyObj t)

end

/-! ## Serialization (json.dumps, ensure_ascii, separators ", " / ": ") -/

def digitChar (d : Nat) : Char :=
  match d with
  | 0 => '0' | 1 => '1' | 2 => '2' | 3 => '3' | 4 => '4'
  | 5 => '5' | 6 => '6' | 7 => '7' | 8 => '8' | _ => '9'

def hexChar (d : Nat) : Char :=
  match d with
  | 0 => '0' | 1 => '1' | 2 => '2' | 3 => '3' | 4 => '4'
  | 5 => '5' | 6 => '6' | 7 => '7' | 8 => '8' | 9 => '9'
  | 10 => 'a' | 11 => 'b' | 12 => 'c' | 13 => 'd' | 14 => 'e' | _ => 'f'

def toHex4 (n : Nat) : List Char :=
  [hexChar (n / 4096 % 16), hexChar (n / 256 % 16), hexChar (n / 16 % 16), hexChar (n % 16)]

def natDecAux : Nat → Nat → List Char
  | 0, _ => []
  | f + 1, n =>
    if n < 10 then [digitChar n]
    else natDecAux f (n / 10) ++ [digitChar (n % 10)]

/-- Decimal digits of a natural number. -/
def natDec (n : Nat) : List Char :=
  natDecAux (n + 1) n

/-- Python repr of an int, as produced by json.dumps. -/
def renderInt (i : Int) : List Char :=
  if i < 0 then '-' :: natDec (-i).toNat else natDec i.toNat

/-- Escaping of one character as done by the ensure_ascii string encoder:
printable ASCII passes through, the usual two-character escapes, and
everything else becomes a hex escape (a surrogate pair for astral chars). -/
def escapeChar (c : Char) : List Char :=
  if c = '"' then ['\\', '"']
  else if c = '\\' then ['\\', '\\']
  else if c = '\n' then ['\\', 'n']
  else if c = '\t' then ['\\', 't']
  else if c = '\r' then ['\\', 'r']
  else if c.toNat = 8 then ['\\', 'b']
  else if c.toNat = 12 then ['\\', 'f']
  else if 32 ≤ c.toNat ∧ c.toNat ≤ 126 then [c]
  else if c.toNat < 65536 then '\\' :: 'u' :: toHex4 c.toNat
  else
    ('\\' :: 'u' :: toHex4 (55296 + (c.toNat - 65536) / 1024)) ++
    ('\\' :: 'u' :: toHex4 (56320 + (c.toNat - 65536) % 1024))

def escapeList : List Char → List Char
  | [] => []
  | c :: cs => escapeChar c ++ escapeList cs

def renderStr (s : List Char) : List Char :=
  '"' :: (escapeList s ++ ['"'])

mutual

def render : JVal → List Char
  | .null => 'n' :: ['u', 'l', 'l']
  | .bool true => 't' :: ['r', 'u', 'e']
  | .bool false => 'f' :: ['a', 'l', 's', 'e']
  | .num i => renderInt i
  | .str s => renderStr s
  | .arr .nil => ['[', ']']
  | .arr (.cons v t) => '[' :: (render v ++ renderArrTail t ++ [']'])
  | .obj .nil => [Char.ofNat 123, Char.ofNat 125]
  | .obj (.cons k v t) =>
      Char.ofNat 123 ::
        (renderStr k ++ ':' :: ' ' :: render v ++ renderObjTail t ++ [Char.ofNat 125])

def renderArrTail : JArr → List Char
  | .nil => []
  | .cons v t => ',' :: ' ' :: (render v ++ renderArrTail t)

def renderObjTail : JObj → List Char
  | .nil => []
  | .cons k v t => ',' :: ' ' :: (renderStr k ++ ':' :: ' ' :: render v ++ renderObjTail t)

end

/-! ## JSON parsing (json.loads) -/

def isWsChar (c : Char) : Bool :=
  c = ' ' || c = '\t' || c = '\n' || c = '\r'

def skipWs : List Char → List Char
  | [] => []
  | c :: cs => if isWsChar c then skipWs cs else c :: cs

def hexVal (c : Char) : Option Nat :=
  if 48 ≤ c.toNat ∧ c.toNat ≤ 57 then some (c.toNat - 48)
  else if 97 ≤ c.toNat ∧ c.toNat ≤ 102 then some (c.toNat - 87)
  else if 65 ≤ c.toNat ∧ c.toNat ≤ 70 then some (c.toNat - 55)
  else none

def digitVal (c : Char) : Option Nat :=
  if 48 ≤ c.toNat ∧ c.toNat ≤ 57 then some (c.toNat - 48) else none

def escCode (c : Char) : Option Char :=
  if c = '"' then some '"'
  else if c = '\\' then some '\\'
  else if c = '/' then some '/'
  else if c = 'b' then some (Char.ofNat 8)
  else if c = 'f' then some (Char.ofNat 12)
  else if c = 'n' then some '\n'
  else if c = 'r' then some '\r'
  else if c = 't' then some '\t'
  else none

def parseHex4 : List Char → Option (Nat × List Char)
  | a :: b :: c :: d :: rest =>
    match hexVal a, hexVal b, hexVal c, hexVal d with
    | some w, some x, some y, some z => some (((w * 16 + x) * 16 + y) * 16 + z, rest)
    | _, _, _, _ => none
  | _ => none

/-- One escape sequence after the backslash, combining a surrogate pair
into one character and rejecting lone surrogates. -/
def parseEsc : List Char → Option (Char × List Char)
  | [] => none
  | e :: cs2 =>
    if e = 'u' then
      match parseHex4 cs2 with
      | some (n, cs3) =>
        if 55296 ≤ n ∧ n < 56320 then
          match cs3 with
          | s1 :: u1 :: cs4 =>
            if s1 = '\\' ∧ u1 = 'u' then
              match parseHex4 cs4 with
              | some (m, cs5) =>
                if 56320 ≤ m ∧ m < 57344 then
                  some (Char.ofNat (65536 + (n - 55296) * 1024 + (m - 56320)), cs5)
                else none
              | none => none
            else none
          | _ => none
        else if 56320 ≤ n ∧ n < 57344 then none
        else some (Char.ofNat n, cs3)
      | none => none
    else
      match escCode e with
      | some ch => some (ch, cs2)
      | none => none

/-- Body of a JSON string after the opening quote: returns the decoded
characters and the input after the closing quote.  The fuel argument only
bounds the recursion; every step consumes at least one input character, so
one more than the input length is always enough. -/
def parseStrBody : Nat → List Char → Option (List Char × List Char)
  | 0, _ => none
  | _ + 1, [] => none
  | f + 1, c :: cs =>
    if c = '"' then some ([], cs)
    else if c = '\\' then
      match parseEsc cs with
      | some (ch, r) =>
        match parseStrBody f r with
        | some (s, r2) => some (ch :: s, r2)
        | none => none
      | none => none
    else if c.toNat < 32 then none
    else
      match parseStrBody f cs with
      | some (s, r) => some (c :: s, r)
      | none => none

def parseDigitsAux (acc : Nat) : List Char → Nat × List Char
  | [] => (acc, [])
  | c :: cs =>
    match digitVal c with
    | some d => parseDigitsAux (acc * 10 + d) cs
    | Option.none => (acc, c :: cs)

def parseNat : List Char → Option (Nat × List Char)
  | [] => none
  | c :: cs =>
    match digitVal c with
    | some d => some (parseDigitsAux d cs)
    | Option.none => none

mutual

def parseVal : Nat → List Char → Option (JVal × List Char)
  | 0, _ => none
  | Nat.succ n, cs =>
    match cs with
    | [] => none
    | c :: cs1 =>
      if c = 'n' then
        match cs1 with
        | 'u' :: 'l' :: 'l' :: r => some (.null, r)
        | _ => none
      else if c = 't' then
        match cs1 with
        | 'r' :: 'u' :: 'e' :: r => some (.bool true, r)
        | _ => none
      else if c = 'f' then
        match cs1 with
        | 'a' :: 'l' :: 's' :: 'e' :: r => some (.bool false, r)
        | _ => none
      else if c = '"' then
        match parseStrBody (cs1.length + 1) cs1 with
        | some (s, r) => some (.str s, r)
        | Option.none => none
      else if c = '-' then
        match parseNat cs1 with
        | some (m, r) => some (.num (-(m : Int)), r)
        | Option.none => none
      else if (digitVal c).isSome then
        match parseNat (c :: cs1) with
        | some (m, r) => some (.num (m : Int), r)
        | Option.none => none
      else if c = '[' then
        match skipWs cs1 with
        | ']' :: r => some (.arr .nil, r)
        | cs2 =>
          match parseItems n cs2 with
          | some (items, r) => some (.arr items, r)
          | Option.none => none
      else if c = Char.ofNat 123 then
        match skipWs cs1 with
        | c2 :: r =>
          if c2 = Char.ofNat 125 then some (.obj .nil, r)
          else
            match parseMembers n (c2 :: r) with
            | some (ms, r2) => some (.obj ms, r2)
            | Option.none => none
        | [] => none
      else none

def parseItems : Nat → List Char → Option (JArr × List Char)
  | 0, _ => none
  | Nat.succ n, cs =>
    match parseVal n cs with
    | some (v, r) =>
      match skipWs r with
      | ',' :: r2 =>
        match parseItems n (skipWs r2) with
        | some (items, r3) => some (.cons v items, r3)
        | Option.none => none
      | ']' :: r2 => some (.cons v .nil, r2)
      | _ => none
    | Option.none => none

def parseMembers : Nat → List Char → Option (JObj × List Char)
  | 0, _ => none
  | Nat.succ n, cs =>
    match cs with
    | '"' :: cs1 =>
      match parseStrBody (cs1.length + 1) cs1 with
      | some (k, r) =>
        match skipWs r with
        | ':' :: r2 =>
          match parseVal n (skipWs r2) with
          | some (v, r3) =>
            match skipWs r3 with
            | ',' :: r4 =>
              match parseMembers n (skipWs r4) with
              | some (ms, r5) => some (.cons k v ms, r5)
              | Option.none => none
            | c2 :: r4 =>
              if c2 = Char.ofNat 125 then some (.cons k v .nil, r4) else none
            | [] => none
          | Option.none => none
        | _ => none
      | Option.none => none
    | _ => none

end

mutual

def fsize : JVal → Nat
  | .null => 1
  | .bool _ => 1
  | .num _ => 1
  | .str _ => 1
  | .arr a => asize a + 1
  | .obj o => osize o + 1

def asize : JArr → Nat
  | .nil => 1
  | .cons v t => fsize v + asize t + 1

def osize : JObj → Nat
  | .nil => 1
  | .cons _ v t => fsize v + osize t + 1

end

/-- json.loads: parse a complete document, allowing surrounding whitespace
and rejecting trailing data. -/
def jsonParse (cs : List Char) : Option JVal :=
  match parseVal (2 * cs.length + 2) (skipWs cs) with
  | some (v, r) => if skipWs r = [] then some v else none
  | Option.none => none

/-! ## UTF-8 (str.encode / bytes.decode) -/

def utf8EncodeChar (c : Char) : List Nat :=
  if c.toNat < 128 then [c.toNat]
  else if c.toNat < 2048 then [192 + c.toNat / 64, 128 + c.toNat % 64]
  else if c.toNat < 65536 then
    [224 + c.toNat / 4096, 128 + c.toNat / 64 % 64, 128 + c.toNat % 64]
  else
    [240 + c.toNat / 262144, 128 + c.toNat / 4096 % 64, 128 + c.toNat / 64 % 64,
      128 + c.toNat % 64]

def utf8Encode : List Char → List Nat
  | [] => []
  | c :: cs => utf8EncodeChar c ++ utf8Encode cs

/-- Read k UTF-8 continuation bytes, extending the accumulated code point. -/
def utf8Cont : Nat → Nat → List Nat → Option (Nat × List Nat)
  | 0, acc, bs => some (acc, bs)
  | k + 1, acc, b :: bs =>
    if 128 ≤ b ∧ b < 192 then utf8Cont k (acc * 64 + (b - 128)) bs else none
  | _ + 1, _, [] => none

/-- One decoding step per unit of fuel; rejects overlong forms, surrogates
and out-of-range code points like the strict stdlib decoder. -/
def utf8DecodeAux : Nat → List Nat → Option (List Char)
  | 0, _ => none
  | _ + 1, [] => some []
  | f + 1, b :: bs =>
    if b < 128 then
      match utf8DecodeAux f bs with
      | some cs => some (Char.ofNat b :: cs)
      | none => none
    else if b < 194 then none
    else if b < 224 then
      match utf8Cont 1 (b - 192) bs with
      | some (n, bs1) =>
        match utf8DecodeAux f bs1 with
        | some cs => some (Char.ofNat n :: cs)
        | none => none
      | none => none
    else if b < 240 then
      match utf8Cont 2 (b - 224) bs with
      | some (n, bs1) =>
        if n < 2048 ∨ (55296 ≤ n ∧ n < 57344) then none
        else
          match utf8DecodeAux f bs1 with
          | some cs => some (Char.ofNat n :: cs)
          | none => none
      | none => none
    else if b < 245 then
      match utf8Cont 3 (b - 240) bs with
      | some (n, bs1) =>
        if n < 65536 ∨ 1114111 < n then none
        else
          match utf8DecodeAux f bs1 with
          | some cs => some (Char.ofNat n :: cs)
          | none => none
      | none => none
    else none

def utf8Decode (bs : List Nat) : Option (List Char) :=
  utf8DecodeAux (bs.length + 1) bs

/-! ## Message framing (ipc.py) -/

/-- The closed MessageType enumeration. -/
inductive MessageType : Type where
  | COMMAND
  | COMMAND_RESPONSE
  | REPL_EVAL
  | REPL_EVAL_RESPONSE
  | REPL_COMPLETE
  | REPL_COMPLETE_RESPONSE
  | REPL_SESSION_START
  | REPL_SESSION_END
  | KEEPALIVE
  | KEEPALIVE_ACK
  | CLOSE
deriving DecidableEq

def msgCode : MessageType → Nat
  | .COMMAND => 1
  | .COMMAND_RESPONSE => 2
  | .REPL_EVAL => 16
  | .REPL_EVAL_RESPONSE => 17
  | .REPL_COMPLETE => 18
  | .REPL_COMPLETE_RESPONSE => 19
  | .REPL_SESSION_START => 20
  | .REPL_SESSION_END => 21
  | .KEEPALIVE => 240
  | .KEEPALIVE_ACK => 241
  | .CLOSE => 255

/-- MessageType(value): membership test of the IntEnum. -/
def msgOfCode (n : Nat) : Option MessageType :=
  if n = 1 then some .COMMAND
  else if n = 2 then some .COMMAND_RESPONSE
  else if n = 16 then some .REPL_EVAL
  else if n = 17 then some .REPL_EVAL_RESPONSE
  else if n = 18 then some .REPL_COMPLETE
  else if n = 19 then some .REPL_COMPLETE_RESPONSE
  else if n = 20 then some .REPL_SESSION_START
  else if n = 21 then some .REPL_SESSION_END
  else if n = 240 then some .KEEPALIVE
  else if n = 241 then some .KEEPALIVE_ACK
  else if n = 255 then some .CLOSE
  else none

/-- pack: json.dumps(msg, default=_json_encoder).encode() -/
def pack (msg : PVal) : List Nat :=
  utf8Encode (render (pyToJson msg))

/-- unpack: json.loads(data.decode()), with decoding or parsing failure
collapsed to an "Unable to decode message payload" IPCError (here: none). -/
def unpack (data : List Nat) : Option JVal :=
  match utf8Decode data with
  | some cs => jsonParse cs
  | none => none

/-- Big-endian 4-byte length field written by struct.pack("!BBL", ...). -/
def be4 (n : Nat) : List Nat :=
  [n / 16777216 % 256, n / 65536 % 256, n / 256 % 256, n % 256]

/-- pack_message: 6-byte header (version, type, big-endian length) followed
by the JSON payload bytes. -/
def pack_message (t : MessageType) (payload : PVal) : List Nat :=
  1 :: msgCode t :: (be4 (pack payload).length ++ pack payload)

/-- The failure modes of read_message, one per named IPCError. -/
inductive ErrKind : Type where
  | incompleteHeader
  | unsupportedVersion
  | unknownType
  | incompletePayload
  | undecodablePayload
deriving DecidableEq

inductive ReadResult : Type where
  | cleanEOF
  | ipcError (k : ErrKind)
  | ok (t : MessageType) (payload : JVal) (rest : List Nat)

/-- read_message on a stream modelled as the list of bytes available
before the peer closes the connection.  A zero declared length yields a
None payload (identified with JSON null, exactly as json.loads produces
for the four-byte payload "null") without consulting the JSON parser. -/
def read_message (s : List Nat) : ReadResult :=
  match s with
  | v :: t :: l0 :: l1 :: l2 :: l3 :: rest =>
    if v ≠ 1 then .ipcError .unsupportedVersion
    else
      match msgOfCode t with
      | some mt =>
        let len := ((l0 * 256 + l1) * 256 + l2) * 256 + l3
        if 0 < len then
          if rest.length < len then .ipcError .incompletePayload
          else
            match unpack (rest.take len) with
            | some payload => .ok mt payload (rest.drop len)
            | none => .ipcError .undecodablePayload
        else .ok mt .null rest
      | none => .ipcError .unknownType
  | [] => .cleanEOF
  | _ => .ipcError .incompleteHeader

/-- Heads that cannot start a longer number: used to state that the number
parser is followed by a delimiter. -/
def notDigitHead : List Char → Prop
  | [] => True
  | c :: _ => digitVal c = none

/-! ## Interactive REPL model (libqtile/interactive/repl.py)

Python values, namespaces and a micro-language of source snippets.  The
wall clock (time.time()) and uuid minting are passed explicitly. -/

inductive Val : Type where
  | vnone : Val
  | vint : Int → Val
  | vstr : String → Val
  | vobj : List (String × Val) → Val
  | vfun : String → Val

def callableV : Val → Bool
  | .vfun _ => true
  | _ => false

def isNoneV : Val → Bool
  | .vnone => true
  | _ => false

/-- dir(): the introspectable attribute names of a value. -/
def dirOf : Val → List String
  | .vobj attrs => attrs.map (fun kv => kv.1)
  | _ => []

def getattrOf : Val → String → Option Val
  | .vobj attrs, a => (attrs.find? (fun kv => kv.1 == a)).map (fun kv => kv.2)
  | _, _ => none

def getattrD (v : Val) (a : String) : Val :=
  (getattrOf v a).getD Val.vnone

/-- Association list with Python dict semantics: insertion order kept,
assignment replaces in place or appends. -/
def alGet {α : Type} : List (String × α) → String → Option α
  | [], _ => none
  | (k, v) :: t, x => if k = x then some v else alGet t x

def alSet {α : Type} : List (String × α) → String → α → List (String × α)
  | [], x, v => [(x, v)]
  | (k, w) :: t, x, v => if k = x then (k, v) :: t else (k, w) :: alSet t x v

def NS : Type := List (String × Val)

/-- Python dict merge as in the double-splat constructor: right side wins. -/
def nsMerge (a b : NS) : NS :=
  b.foldl (fun acc kv => alSet acc kv.1 kv.2) a

inductive PyErr : Type where
  | nameErr : String → PyErr
  | attrErr : String → PyErr
  | typeErr : String → PyErr
  | synErr : PyErr
  | exc : String → PyErr
deriving DecidableEq

/-- Expressions of the micro-language accepted by compile(code, "eval"). -/
inductive Expr : Type where
  | lit : Int → Expr
  | strLit : String → Expr
  | name : String → Expr
  | printE : Expr → Expr

/-- Parsed source snippets; statements fail expression compilation with a
SyntaxError and fall through to the incremental statement compiler. -/
inductive Code : Type where
  | expr : Expr → Code
  | assign : String → Expr → Code
  | raiseE : String → Code
  | passS : Code

def compileExpr : Code → Option Expr
  | .expr e => some e
  | _ => none

def pyRepr : Val → String
  | .vnone => "None"
  | .vint n => String.mk (renderInt n)
  | .vstr s => "\x27" ++ s ++ "\x27"
  | .vobj _ => "<object>"
  | .vfun f => "<function " ++ f ++ ">"

def pyStr : Val → String
  | .vstr s => s
  | v => pyRepr v

/-- Evaluation of an expression: the value and everything written to the
current standard output while evaluating it. -/
def evalExpr : Expr → NS → Except PyErr (Val × String)
  | .lit n, _ => .ok (.vint n, "")
  | .strLit s, _ => .ok (.vstr s, "")
  | .name x, ns =>
    match alGet ns x with
    | some v => .ok (v, "")
    | none => .error (.nameErr x)
  | .printE e, ns =>
    match evalExpr e ns with
    | .ok (v, o) => .ok (.vnone, o ++ pyStr v ++ "\n")
    | .error e2 => .error e2

/-- exec of a complete statement. -/
def execStmt : Code → NS → Except PyErr (NS × String)
  | .expr e, ns =>
    match evalExpr e ns with
    | .ok (_, o) => .ok (ns, o)
    | .error e2 => .error e2
  | .assign x e, ns =>
    match evalExpr e ns with
    | .ok (v, o) => .ok (alSet ns x v, o)
    | .error e2 => .error e2
  | .raiseE msg, _ => .error (.exc msg)
  | .passS, ns => .ok (ns, "")

def tracebackOf (e : PyErr) : String :=
  "Traceback (most recent call last):\n  File \"<stdin>\", line 1, in <module>\n" ++
    (match e with
     | .nameErr x => "NameError: name \x27" ++ x ++ "\x27 is not defined\n"
     | .attrErr a => "AttributeError: " ++ a ++ "\n"
     | .typeErr m => "TypeError: " ++ m ++ "\n"
     | .synErr => "SyntaxError: invalid\n"
     | .exc m => "Exception: " ++ m ++ "\n")

def isPyWs (c : Char) : Bool :=
  c = ' ' || c = '\t' || c = '\n' || c = '\r' || c.toNat = 11 || c.toNat = 12

/-- str.strip() -/
def pyStrip (s : String) : String :=
  String.mk (((s.data.dropWhile isPyWs).reverse.dropWhile isPyWs).reverse)

def listSub (pat hay : List Char) : Bool :=
  (List.range (hay.length + 1)).any (fun i => pat.isPrefixOf (hay.drop i))

/-- Python substring containment (the in operator on str). -/
def strContains (hay pat : String) : Bool :=
  listSub pat.data hay.data

def strPre (p s : String) : Bool :=
  p.data.isPrefixOf s.data

/-! ### Completion (parse_completion_expr / get_completions) -/

def isWordChar (c : Char) : Bool :=
  c.isAlphanum || c = '_'

/-- The trailing run of word characters and dots that the anchored regex
can match. -/
def trailingRun (text : List Char) : List Char :=
  (text.reverse.takeWhile (fun c => isWordChar c || c = '.')).reverse

/-- ATTR_MATCH.search: None when no trailing identifier run exists,
otherwise the run split at its last usable dot (a dot at position zero
cannot split because the first group needs at least one character). -/
def parse_completion_expr (text : String) : Option (String × String) :=
  let R := trailingRun text.data
  if R.isEmpty then none
  else
    let revR := R.reverse
    let afterRev := revR.takeWhile (fun c => c ≠ '.')
    if afterRev.length = R.length then some (String.mk R, "")
    else
      let before := (revR.drop (afterRev.length + 1)).reverse
      if before.isEmpty then some (String.mk R, "")
      else some (String.mk before, String.mk afterRev.reverse)

def splitDots : List Char → List (List Char)
  | [] => [[]]
  | c :: cs =>
    if c = '.' then [] :: splitDots cs
    else
      match splitDots cs with
      | s :: rest => (c :: s) :: rest
      | [] => [[c]]

def isIdent : List Char → Bool
  | [] => false
  | c :: cs => (c.isAlpha || c = '_') && cs.all isWordChar

def getattrChain : Val → List (List Char) → Except PyErr Val
  | v, [] => .ok v
  | v, s :: rest =>
    match getattrOf v (String.mk s) with
    | some v2 => getattrChain v2 rest
    | none => .error (.attrErr (String.mk s))

/-- Evaluation of the dotted base expression of a completion with empty
globals and the session namespace as locals: an identifier chain is looked
up and chased through attributes; anything else fails to compile. -/
def evalName (e : String) (ns : NS) : Except PyErr Val :=
  let segs := splitDots e.data
  if segs.all isIdent then
    match segs with
    | [] => .error .synErr
    | s0 :: rest =>
      match alGet ns (String.mk s0) with
      | some v0 => getattrChain v0 rest
      | none => .error (.nameErr (String.mk s0))
  else .error .synErr

/-- get_completions.  A raised TypeError (completing a text with no
trailing identifier against a non-empty namespace: name.startswith(None))
escapes as an error value. -/
def get_completions (text : String) (local_vars : NS) : Except PyErr (List String) :=
  let parsed := parse_completion_expr text
  if text.data.contains '.' = false then
    match parsed with
    | some (e, _) =>
      .ok ((local_vars.filter (fun kv => strPre e kv.1)).map (fun kv => kv.1))
    | none =>
      if local_vars.isEmpty then .ok []
      else .error (.typeErr "startswith first arg must be str or a tuple of str, not NoneType")
  else
    match parsed with
    | none => .ok []
    | some (e, attrPre) =>
      match evalName e local_vars with
      | .error _ => .ok []
      | .ok base =>
        .ok ((((dirOf base).filter (fun a => strPre attrPre a)).map
          (fun a => e ++ "." ++ a ++ (if callableV (getattrD base a) then "(" else ""))).filter
            (fun o => o.isEmpty = false))

/-! ### Sessions and the manager -/

/-- make_safer_env(): the curated global environment seeded into every
session (interactive help and input are replaced by safe stand-ins inside
the builtins object). -/
def make_safer_env : NS :=
  [("__builtins__", Val.vobj [("help", Val.vfun "safe_help"), ("input", Val.vfun "_wrapper")])]

structure REPLSession where
  session_id : String
  locals : NS
  last_active : Nat

def mkSession (id : String) (locals_dict : NS) (now : Nat) : REPLSession :=
  ⟨id, nsMerge make_safer_env locals_dict, now⟩

/-- evaluate_code: expression path first, statement fallback on a syntax
error, every other exception rendered as a traceback into the captured
output; the result is the captured output and the updated session. -/
def evaluate_code (s : REPLSession) (code : Code) (now : Nat) : String × REPLSession :=
  match compileExpr code with
  | some e =>
    match evalExpr e s.locals with
    | .ok (v, out) =>
      (out ++ (if isNoneV v then "" else pyRepr v ++ "\n"),
        { s with last_active := now })
    | .error err => (tracebackOf err, { s with last_active := now })
  | none =>
    match execStmt code s.locals with
    | .ok (ns2, out) => (out, { s with locals := ns2, last_active := now })
    | .error err => (tracebackOf err, { s with last_active := now })

/-- The pair of stream redirections wrapped around one evaluate_code call:
all writes land in the returned buffer, the host stream is untouched and
restored on every exit path. -/
def evaluate_code_streams (s : REPLSession) (code : Code) (now : Nat) (host : String) :
    (String × REPLSession) × String :=
  (evaluate_code s code now, host)

/-- REPLSession.get_completions: touches last_active, then completes. -/
def session_get_completions (s : REPLSession) (text : String) (now : Nat) :
    Except PyErr (List String) × REPLSession :=
  (get_completions text s.locals, { s with last_active := now })

def SESSION_TIMEOUT : Nat := 3600

structure REPLManager where
  sessions : List (String × REPLSession)
  default_locals : NS
  enabled : Bool
  qtile : Option Bool

def cleanup_inactive_sessions (m : REPLManager) (now : Nat) : REPLManager :=
  { m with
    sessions := m.sessions.filter (fun kv =>
      decide (now - kv.2.last_active ≤ SESSION_TIMEOUT)) }

def createSession (m : REPLManager) (newId : String) (now : Nat) :
    REPLSession × REPLManager :=
  let s := mkSession newId m.default_locals now
  (s, { m with sessions := alSet m.sessions newId s })

/-- get_or_create_session: sweep first; a truthy known id returns the
stored session unchanged; otherwise a session is created under the given
truthy id, or under the freshly minted uuid. -/
def get_or_create_session (m : REPLManager) (sid : Option String) (now : Nat)
    (fresh : String) : REPLSession × REPLManager :=
  let m1 := cleanup_inactive_sessions m now
  match sid with
  | some id =>
    if id.isEmpty then createSession m1 fresh now
    else
      match alGet m1.sessions id with
      | some s => (s, m1)
      | none => createSession m1 id now
  | none => createSession m1 fresh now

def remove_session (m : REPLManager) (id : String) : REPLManager :=
  { m with sessions := m.sessions.filter (fun kv => kv.1 != id) }

/-- The response dictionaries handle_message can produce. -/
inductive Resp : Type where
  | err : String → Resp
  | started : String → String → Resp
  | ended : Resp
  | evalOut : String → String → Resp
  | completions : String → List String → Resp
deriving DecidableEq

structure ReplPayload where
  code : Option Code
  text : Option String
  session_id : Option String

def msgName : MessageType → String
  | .COMMAND => "MessageType.COMMAND"
  | .COMMAND_RESPONSE => "MessageType.COMMAND_RESPONSE"
  | .REPL_EVAL => "MessageType.REPL_EVAL"
  | .REPL_EVAL_RESPONSE => "MessageType.REPL_EVAL_RESPONSE"
  | .REPL_COMPLETE => "MessageType.REPL_COMPLETE"
  | .REPL_COMPLETE_RESPONSE => "MessageType.REPL_COMPLETE_RESPONSE"
  | .REPL_SESSION_START => "MessageType.REPL_SESSION_START"
  | .REPL_SESSION_END => "MessageType.REPL_SESSION_END"
  | .KEEPALIVE => "MessageType.KEEPALIVE"
  | .KEEPALIVE_ACK => "MessageType.KEEPALIVE_ACK"
  | .CLOSE => "MessageType.CLOSE"

/-- REPLManager.handle_message.  The resulting manager state is returned in
all cases; a raised exception (only possible from completion) is the error
side and propagates to the connection handler. -/
def handle_message (m : REPLManager) (t : MessageType) (p : ReplPayload) (now : Nat)
    (fresh : String) : Except PyErr Resp × REPLManager :=
  if m.enabled = false then
    (.ok (.err "REPL not enabled. Run start_repl_server first."), m)
  else if m.qtile.getD false then (.ok (.err "Session is locked."), m)
  else if t = .REPL_SESSION_START then
    let sm := get_or_create_session m none now fresh
    (.ok (.started sm.1.session_id "REPL session started. Press Ctrl+C to exit."), sm.2)
  else if t = .REPL_SESSION_END then
    match p.session_id with
    | some id => if id.isEmpty then (.ok .ended, m) else (.ok .ended, remove_session m id)
    | none => (.ok .ended, m)
  else if t = .REPL_EVAL then
    let c := p.code.getD Code.passS
    let sm := get_or_create_session m p.session_id now fresh
    let os := evaluate_code sm.1 c now
    (.ok (.evalOut sm.1.session_id (pyStrip os.1)),
      { sm.2 with sessions := alSet sm.2.sessions os.2.session_id os.2 })
  else if t = .REPL_COMPLETE then
    let txt := p.text.getD ""
    let sm := get_or_create_session m p.session_id now fresh
    let cs := session_get_completions sm.1 txt now
    let m2 := { sm.2 with sessions := alSet sm.2.sessions cs.2.session_id cs.2 }
    match cs.1 with
    | .ok comps => (.ok (.completions sm.1.session_id comps), m2)
    | .error e => (.error e, m2)
  else (.ok (.err ("Unknown REPL message type: " ++ msgName t)), m)

/-! ### Connection handler dispatch (Server._server_callback) -/

inductive FramePayload (α : Type) : Type where
  | pnone : FramePayload α
  | lockedErr : FramePayload α
  | cmdResult : α → FramePayload α
  | replResp : Resp → FramePayload α
deriving DecidableEq

inductive ServerAction (α : Type) : Type where
  | closed : ServerAction α
  | sendFrame : MessageType → FramePayload α → ServerAction α
  | noResponse : ServerAction α
  | ignored : ServerAction α
deriving DecidableEq

def notEnabledMsg : String := "REPL not enabled. Run start_repl_server first."

/-- One dispatch step of the per-connection loop for an already decoded
message, parameterized by the external command handler and the optional
REPL handler.  lockedErr stands for the literal response payload
(1, dict-of-error "Session locked.") sent without invoking the handler. -/
def serverDispatch {π α : Type} (locked : Bool) (handler : π → α)
    (replH : Option (MessageType → π → Resp)) (t : MessageType) (p : π) :
    ServerAction α :=
  if t = .CLOSE then .closed
  else if t = .KEEPALIVE then .sendFrame .KEEPALIVE_ACK .pnone
  else if t = .COMMAND then
    if locked then .sendFrame .COMMAND_RESPONSE .lockedErr
    else .sendFrame .COMMAND_RESPONSE (.cmdResult (handler p))
  else if t = .REPL_EVAL ∨ t = .REPL_COMPLETE ∨ t = .REPL_SESSION_START ∨
      t = .REPL_SESSION_END then
    match replH with
    | none =>
      if t = .REPL_EVAL then .sendFrame .REPL_EVAL_RESPONSE (.replResp (.err notEnabledMsg))
      else if t = .REPL_COMPLETE then
        .sendFrame .REPL_COMPLETE_RESPONSE (.replResp (.err notEnabledMsg))
      else .sendFrame .REPL_EVAL_RESPONSE (.replResp (.err notEnabledMsg))
    | some h =>
      if t = .REPL_EVAL then .sendFrame .REPL_EVAL_RESPONSE (.replResp (h t p))
      else if t = .REPL_COMPLETE then
        .sendFrame .REPL_COMPLETE_RESPONSE (.replResp (h t p))
      else if t = .REPL_SESSION_START then
        .sendFrame .REPL_EVAL_RESPONSE (.replResp (h t p))
      else .noResponse
  else .ignored

def lenField (msg : List Nat) : Nat :=
  match msg with
  | _ :: _ :: a :: b :: c :: d :: _ => ((a * 256 + b) * 256 + c) * 256 + d
  | _ => 0

/-! ## Codec lemmas -/

theorem char_valid_nat (c : Char) : c.toNat < 55296 ∨ (57343 < c.toNat ∧ c.toNat < 1114112) := by
  have h := c.valid
  unfold UInt32.isValidChar Nat.isValidChar at h
  have e : c.toNat = c.val.toNat := rfl
  omega

theorem hexVal_hexChar : ∀ d : Nat, d < 16 → hexVal (hexChar d) = some d := by
  decide

theorem digitVal_digitChar : ∀ d : Nat, d < 10 → digitVal (digitChar d) = some d := by
  decide

theorem parseHex4_toHex4 (n : Nat) (hn : n < 65536) (rest : List Char) :
    parseHex4 (toHex4 n ++ rest) = some (n, rest) := by
  have h1 := hexVal_hexChar (n / 4096 % 16) (Nat.mod_lt _ (by norm_num))
  have h2 := hexVal_hexChar (n / 256 % 16) (Nat.mod_lt _ (by norm_num))
  have h3 := hexVal_hexChar (n / 16 % 16) (Nat.mod_lt _ (by norm_num))
  have h4 := hexVal_hexChar (n % 16) (Nat.mod_lt _ (by norm_num))
  have e : ((n / 4096 % 16 * 16 + n / 256 % 16) * 16 + n / 16 % 16) * 16 + n % 16 = n := by
    omega
  simp only [toHex4, List.cons_append, List.nil_append, parseHex4, h1, h2, h3, h4, e]

theorem parseEsc_u (n : Nat) (h1 : n < 65536) (h2 : ¬ (55296 ≤ n ∧ n < 57344))
    (rest : List Char) :
    parseEsc ('u' :: (toHex4 n ++ rest)) = some (Char.ofNat n, rest) := by
  rw [parseEsc, if_pos rfl, parseHex4_toHex4 n h1 rest]
  dsimp only
  rw [if_neg (by omega)]
  rw [if_neg (by omega)]

theorem parseEsc_pair (n : Nat) (h1 : 65536 ≤ n) (h2 : n < 1114112) (rest : List Char) :
    parseEsc ('u' :: (toHex4 (55296 + (n - 65536) / 1024) ++
      ('\\' :: 'u' :: (toHex4 (56320 + (n - 65536) % 1024) ++ rest)))) =
      some (Char.ofNat n, rest) := by
  have hhi : 55296 + (n - 65536) / 1024 < 65536 := by omega
  have hm := Nat.mod_lt (n - 65536) (show 0 < 1024 by norm_num)
  have hlo : 56320 + (n - 65536) % 1024 < 65536 := by omega
  rw [parseEsc, if_pos rfl, parseHex4_toHex4 _ hhi]
  dsimp only
  rw [if_pos (by omega)]
  simp only [List.cons_append]
  rw [if_pos ⟨trivial, trivial⟩, parseHex4_toHex4 _ hlo]
  dsimp only
  rw [if_pos (by omega)]
  have e : 65536 + (55296 + (n - 65536) / 1024 - 55296) * 1024 +
      (56320 + (n - 65536) % 1024 - 56320) = n := by omega
  rw [e]

/-- The escape produced for a character is either the character itself
(printable, unescaped) or a backslash escape that parseEsc decodes back to
exactly that character. -/
theorem escapeChar_spec (c : Char) :
    (escapeChar c = [c] ∧ c ≠ '"' ∧ c ≠ '\\' ∧ ¬ c.toNat < 32) ∨
    (∃ t, escapeChar c = '\\' :: t ∧ ∀ rest, parseEsc (t ++ rest) = some (c, rest)) := by
  by_cases h1 : c = '"'
  · exact Or.inr ⟨['"'], by simp [escapeChar, h1], fun rest => by simp [parseEsc, escCode, h1]⟩
  by_cases h2 : c = '\\'
  · exact Or.inr ⟨['\\'], by simp [escapeChar, h1, h2], fun rest => by
      simp [parseEsc, escCode, h2]⟩
  by_cases h3 : c = '\n'
  · exact Or.inr ⟨['n'], by simp [escapeChar, h1, h2, h3], fun rest => by
      simp [parseEsc, escCode, h3]⟩
  by_cases h4 : c = '\t'
  · exact Or.inr ⟨['t'], by simp [escapeChar, h1, h2, h3, h4], fun rest => by
      simp [parseEsc, escCode, h4]⟩
  by_cases h5 : c = '\r'
  · exact Or.inr ⟨['r'], by simp [escapeChar, h1, h2, h3, h4, h5], fun rest => by
      simp [parseEsc, escCode, h5]⟩
  by_cases h6 : c.toNat = 8
  · have hc : c = Char.ofNat 8 := by rw [← Char.ofNat_toNat c, h6]
    subst hc
    exact Or.inr ⟨['b'], by simp [escapeChar], fun rest => by simp [parseEsc, escCode]⟩
  by_cases h7 : c.toNat = 12
  · have hc : c = Char.ofNat 12 := by rw [← Char.ofNat_toNat c, h7]
    subst hc
    exact Or.inr ⟨['f'], by simp [escapeChar], fun rest => by simp [parseEsc, escCode]⟩
  by_cases h8 : 32 ≤ c.toNat ∧ c.toNat ≤ 126
  · exact Or.inl ⟨by simp [escapeChar, h1, h2, h3, h4, h5, h6, h7, h8], h1, h2, by omega⟩
  by_cases h9 : c.toNat < 65536
  · refine Or.inr ⟨'u' :: toHex4 c.toNat,
      by simp [escapeChar, h1, h2, h3, h4, h5, h6, h7, h8, h9], fun rest => ?_⟩
    have hv := char_valid_nat c
    have := parseEsc_u c.toNat h9 (by omega) rest
    simpa [Char.ofNat_toNat] using this
  · have hv := char_valid_nat c
    refine Or.inr ⟨'u' :: (toHex4 (55296 + (c.toNat - 65536) / 1024) ++
      ('\\' :: 'u' :: (toHex4 (56320 + (c.toNat - 65536) % 1024) ++ []))), ?_, fun rest => ?_⟩
    · simp [escapeChar, h1, h2, h3, h4, h5, h6, h7, h8, h9]
    · have := parseEsc_pair c.toNat (by omega) (by omega) rest
      simpa [Char.ofNat_toNat] using this

theorem parseStrBody_round (s : List Char) : ∀ f rest, s.length < f →
    parseStrBody f (escapeList s ++ '"' :: rest) = some (s, rest) := by
  induction s with
  | nil =>
    intro f rest hf
    obtain ⟨g, rfl⟩ : ∃ g, f = g + 1 := ⟨f - 1, by omega⟩
    simp [escapeList, parseStrBody]
  | cons c cs ih =>
    intro f rest hf
    obtain ⟨g, rfl⟩ : ∃ g, f = g + 1 := ⟨f - 1, by omega⟩
    have hg : cs.length < g := by simpa using hf
    rcases escapeChar_spec c with ⟨he, hq, hb, hc⟩ | ⟨t, he, hp⟩
    · simp only [escapeList, he, List.cons_append, List.nil_append,
        List.singleton_append, parseStrBody]
      rw [if_neg hq, if_neg hb, if_neg hc, ih g rest hg]
    · simp only [escapeList, he, List.cons_append, List.append_assoc, parseStrBody]
      rw [if_pos trivial, hp (escapeList cs ++ '"' :: rest)]
      dsimp only
      rw [ih g rest hg]
      simp


theorem parseDigitsAux_stop (acc : Nat) (rest : List Char) (h : notDigitHead rest) :
    parseDigitsAux acc rest = (acc, rest) := by
  cases rest with
  | nil => rfl
  | cons c cs =>
    simp only [notDigitHead] at h
    simp [parseDigitsAux, h]

theorem natDecAux_congr : ∀ n f g, n < f → n < g → natDecAux f n = natDecAux g n := by
  intro n
  induction n using Nat.strong_induction_on with
  | _ n ih =>
    intro f g hf hg
    obtain ⟨f1, rfl⟩ : ∃ k, f = k + 1 := ⟨f - 1, by omega⟩
    obtain ⟨g1, rfl⟩ : ∃ k, g = k + 1 := ⟨g - 1, by omega⟩
    by_cases h : n < 10
    · simp [natDecAux, h]
    · have hd : n / 10 < n := Nat.div_lt_self (by omega) (by omega)
      simp only [natDecAux, if_neg h]
      rw [ih (n / 10) hd f1 g1 (by omega) (by omega)]

theorem natDec_eq (n : Nat) :
    natDec n = if n < 10 then [digitChar n]
      else natDec (n / 10) ++ [digitChar (n % 10)] := by
  by_cases h : n < 10
  · simp [natDec, natDecAux, h]
  · have hd : n / 10 < n := Nat.div_lt_self (by omega) (by omega)
    rw [natDec, natDecAux, if_neg h,
      natDecAux_congr (n / 10) n (n / 10 + 1) hd (by omega), if_neg h]
    rfl

theorem parseDigitsAux_natDec (n : Nat) : ∀ acc rest,
    parseDigitsAux acc (natDec n ++ rest) =
      parseDigitsAux (acc * 10 ^ (natDec n).length + n) rest := by
  induction n using Nat.strong_induction_on with
  | _ n ih =>
    intro acc rest
    by_cases h : n < 10
    · rw [natDec_eq, if_pos h]
      simp [parseDigitsAux, digitVal_digitChar n h]
    · rw [natDec_eq, if_neg h]
      rw [List.append_assoc, ih (n / 10) (Nat.div_lt_self (by omega) (by omega)) acc _]
      simp only [List.singleton_append, parseDigitsAux, digitVal_digitChar (n % 10) (by omega)]
      have hd : n / 10 * 10 + n % 10 = n := by omega
      simp only [List.nil_append, List.length_append, List.length_cons, List.length_nil]
      congr 1
      rw [pow_succ, ← Nat.mul_assoc, Nat.add_mul, Nat.add_assoc, hd]

theorem natDec_head (n : Nat) : ∃ d cs, natDec n = digitChar d :: cs ∧ d < 10 := by
  induction n using Nat.strong_induction_on with
  | _ n ih =>
    by_cases h : n < 10
    · exact ⟨n, [], by rw [natDec_eq, if_pos h], h⟩
    · obtain ⟨d, cs, he, hd⟩ := ih (n / 10) (Nat.div_lt_self (by omega) (by omega))
      exact ⟨d, cs ++ [digitChar (n % 10)], by rw [natDec_eq, if_neg h, he]; simp, hd⟩

theorem parseNat_natDec (n : Nat) (rest : List Char) (h : notDigitHead rest) :
    parseNat (natDec n ++ rest) = some (n, rest) := by
  obtain ⟨d, cs, he, hd⟩ := natDec_head n
  have key : parseDigitsAux 0 (natDec n ++ rest) = (n, rest) := by
    rw [parseDigitsAux_natDec n 0 rest]
    simpa using parseDigitsAux_stop n rest h
  rw [he] at key ⊢
  simp only [List.cons_append, parseNat, digitVal_digitChar d hd] at key ⊢
  simp only [parseDigitsAux, digitVal_digitChar d hd] at key
  simpa using key

theorem digitChar_facts : ∀ d : Nat, d < 10 →
    digitChar d ≠ 'n' ∧ digitChar d ≠ 't' ∧ digitChar d ≠ 'f' ∧ digitChar d ≠ '"' ∧
    digitChar d ≠ '-' ∧ (digitVal (digitChar d)).isSome = true ∧
    isWsChar (digitChar d) = false ∧ digitChar d ≠ ']' := by
  decide

theorem render_head (v : JVal) :
    ∃ c cs, render v = c :: cs ∧ isWsChar c = false ∧ c ≠ ']' := by
  cases v with
  | null => exact ⟨'n', _, rfl, by decide, by decide⟩
  | bool b => cases b with
    | true => exact ⟨'t', _, rfl, by decide, by decide⟩
    | false => exact ⟨'f', _, rfl, by decide, by decide⟩
  | num i =>
    by_cases h : i < 0
    · exact ⟨'-', _, by rw [render, renderInt, if_pos h], by decide, by decide⟩
    · obtain ⟨d, cs, he, hd⟩ := natDec_head i.toNat
      have hf := digitChar_facts d hd
      exact ⟨digitChar d, cs, by rw [render, renderInt, if_neg h, he], hf.2.2.2.2.2.2.1,
        hf.2.2.2.2.2.2.2⟩
  | str s => exact ⟨'"', _, rfl, by decide, by decide⟩
  | arr a => cases a with
    | nil => exact ⟨'[', _, rfl, by decide, by decide⟩
    | cons v t => exact ⟨'[', _, rfl, by decide, by decide⟩
  | obj o => cases o with
    | nil => exact ⟨Char.ofNat 123, _, rfl, by decide, by decide⟩
    | cons k v t => exact ⟨Char.ofNat 123, _, rfl, by decide, by decide⟩

theorem skipWs_cons (c : Char) (l : List Char) (h : isWsChar c = false) :
    skipWs (c :: l) = c :: l := by
  simp [skipWs, h]

theorem skipWs_render (v : JVal) (rest : List Char) :
    skipWs (render v ++ rest) = render v ++ rest := by
  obtain ⟨c, cs, he, hw, _⟩ := render_head v
  rw [he, List.cons_append, skipWs_cons _ _ hw]

theorem fsize_pos (v : JVal) : 1 ≤ fsize v := by
  cases v <;> simp [fsize]

theorem asize_pos (a : JArr) : 1 ≤ asize a := by
  cases a <;> simp [asize]

theorem osize_pos (o : JObj) : 1 ≤ osize o := by
  cases o <;> simp [osize]

theorem escapeList_length (s : List Char) : s.length ≤ (escapeList s).length := by
  induction s with
  | nil => simp [escapeList]
  | cons c cs ih =>
    have h1 : 1 ≤ (escapeChar c).length := by
      rcases escapeChar_spec c with ⟨he, _⟩ | ⟨t, he, _⟩ <;> simp [he]
    simp only [escapeList, List.length_append, List.length_cons]
    omega

theorem notDigit_arrTail (t : JArr) (rest : List Char) :
    notDigitHead (renderArrTail t ++ ']' :: rest) := by
  cases t with
  | nil => simp only [renderArrTail, List.nil_append, notDigitHead]; decide
  | cons v2 t2 => simp only [renderArrTail, List.cons_append, notDigitHead]; decide

theorem notDigit_objTail (o : JObj) (rest : List Char) :
    notDigitHead (renderObjTail o ++ Char.ofNat 125 :: rest) := by
  cases o with
  | nil => simp only [renderObjTail, List.nil_append, notDigitHead]; decide
  | cons k2 v2 t2 => simp only [renderObjTail, List.cons_append, notDigitHead]; decide

theorem skipWs_space (l : List Char) : skipWs (' ' :: l) = skipWs l := by
  simp [skipWs, isWsChar]

theorem parseVal_digitHead (n : Nat) (d : Nat) (hd : d < 10) (cs : List Char) :
    parseVal (n + 1) (digitChar d :: cs) =
      (match parseNat (digitChar d :: cs) with
       | some (m, r) => some (JVal.num (m : Int), r)
       | Option.none => none) := by
  interval_cases d <;> rfl

theorem roundtrip_ind (N : Nat) :
    (∀ v m rest, fsize v ≤ N → fsize v ≤ m → notDigitHead rest →
      parseVal m (render v ++ rest) = some (v, rest)) ∧
    (∀ k v t m rest, fsize v + osize t + 1 ≤ N → fsize v + osize t + 1 ≤ m →
      parseMembers m ('"' :: (escapeList k ++ ('"' :: (':' :: (' ' :: (render v ++
        (renderObjTail t ++ (Char.ofNat 125 :: rest)))))))) =
        some (JObj.cons k v t, rest)) ∧
    (∀ v t m rest, fsize v + asize t + 1 ≤ N → fsize v + asize t + 1 ≤ m →
      parseItems m (render v ++ (renderArrTail t ++ (']' :: rest))) =
        some (JArr.cons v t, rest)) := by
  induction N with
  | zero =>
    refine ⟨fun v m rest hN _ _ => ?_, fun k v t m rest hN _ => ?_, fun v t m rest hN _ => ?_⟩
    · have := fsize_pos v
      omega
    · have := fsize_pos v
      omega
    · have := fsize_pos v
      omega
  | succ N ih =>
    refine ⟨fun v m rest hN hm hrest => ?_, fun k v t m rest hN hm => ?_,
      fun v t m rest hN hm => ?_⟩
    · -- parseVal on a rendered value
      obtain ⟨n, rfl⟩ : ∃ k, m = k + 1 := ⟨m - 1, by have := fsize_pos v; omega⟩
      cases v with
      | null => rfl
      | bool b => cases b <;> rfl
      | num i =>
        by_cases hneg : i < 0
        · rw [render, renderInt, if_pos hneg]
          have step : parseVal (n + 1) (('-' :: natDec (-i).toNat) ++ rest) =
              (match parseNat (natDec (-i).toNat ++ rest) with
               | some (m2, r) => some (JVal.num (-(m2 : Int)), r)
               | Option.none => none) := rfl
          rw [step, parseNat_natDec _ rest hrest]
          have he : (((-i).toNat : Int)) = -i := Int.toNat_of_nonneg (by omega)
          dsimp only
          rw [he, neg_neg]
        · obtain ⟨d, cs, he, hd⟩ := natDec_head i.toNat
          rw [render, renderInt, if_neg hneg, he, List.cons_append,
            parseVal_digitHead n d hd (cs ++ rest), ← List.cons_append, ← he,
            parseNat_natDec _ rest hrest]
          have hi : ((i.toNat : Int)) = i := Int.toNat_of_nonneg (by omega)
          dsimp only
          rw [hi]
      | str s =>
        rw [render, renderStr]
        have step : parseVal (n + 1) (('"' :: (escapeList s ++ ['"'])) ++ rest) =
            (match parseStrBody (((escapeList s ++ ['"']) ++ rest).length + 1)
                ((escapeList s ++ ['"']) ++ rest) with
             | some (s2, r) => some (JVal.str s2, r)
             | Option.none => none) := rfl
        rw [step]
        simp only [List.append_assoc, List.singleton_append]
        have hlen : s.length < (escapeList s ++ '"' :: rest).length + 1 := by
          have := escapeList_length s
          simp only [List.length_append, List.length_cons]
          omega
        rw [parseStrBody_round s _ rest hlen]
      | arr a =>
        cases a with
        | nil => rfl
        | cons v t =>
          rw [render]
          have step : parseVal (n + 1)
              (('[' :: (render v ++ renderArrTail t ++ [']'])) ++ rest) =
              (match skipWs ((render v ++ renderArrTail t ++ [']']) ++ rest) with
               | ']' :: r => some (JVal.arr JArr.nil, r)
               | cs2 =>
                 match parseItems n cs2 with
                 | some (items, r) => some (JVal.arr items, r)
                 | Option.none => none) := rfl
          rw [step]
          simp only [List.append_assoc, List.singleton_append]
          rw [skipWs_render v (renderArrTail t ++ ']' :: rest)]
          obtain ⟨c, cs, hre, hw, hne⟩ := render_head v
          have hsz : fsize (JVal.arr (JArr.cons v t)) = fsize v + asize t + 2 := by
            simp only [fsize, asize]
          have hit := ih.2.2 v t n rest (by omega) (by omega)
          rw [hre, List.cons_append] at hit ⊢
          split
          · next r heq =>
            exact absurd (List.cons_eq_cons.mp heq).1 hne
          · next heq =>
            rw [hit]
      | obj o =>
        cases o with
        | nil => rfl
        | cons k v t =>
          rw [render]
          have step : parseVal (n + 1)
              ((Char.ofNat 123 ::
                (renderStr k ++ ':' :: ' ' :: render v ++ renderObjTail t ++
                  [Char.ofNat 125])) ++ rest) =
              (match skipWs ((renderStr k ++ ':' :: ' ' :: render v ++ renderObjTail t ++
                  [Char.ofNat 125]) ++ rest) with
               | c2 :: r =>
                 if c2 = Char.ofNat 125 then some (JVal.obj JObj.nil, r)
                 else
                   match parseMembers n (c2 :: r) with
                   | some (ms, r2) => some (JVal.obj ms, r2)
                   | Option.none => none
               | [] => none) := rfl
          rw [step, renderStr]
          simp only [List.append_assoc, List.cons_append, List.singleton_append,
            List.nil_append]
          rw [skipWs_cons _ _ (by decide)]
          dsimp only
          rw [if_neg (by decide)]
          have hsz : fsize (JVal.obj (JObj.cons k v t)) = fsize v + osize t + 2 := by
            simp only [fsize, osize]
          have hmem := ih.2.1 k v t n rest (by omega) (by omega)
          rw [hmem]
    · -- parseMembers on a rendered first member plus rendered tail
      obtain ⟨n, rfl⟩ : ∃ k2, m = k2 + 1 := ⟨m - 1, by omega⟩
      have step : parseMembers (n + 1) ('"' :: (escapeList k ++ ('"' :: (':' :: (' ' ::
          (render v ++ (renderObjTail t ++ (Char.ofNat 125 :: rest)))))))) =
          (match parseStrBody ((escapeList k ++ ('"' :: (':' :: (' ' :: (render v ++
              (renderObjTail t ++ (Char.ofNat 125 :: rest))))))).length + 1)
              (escapeList k ++ ('"' :: (':' :: (' ' :: (render v ++
              (renderObjTail t ++ (Char.ofNat 125 :: rest))))))) with
           | some (k2, r) =>
             match skipWs r with
             | ':' :: r2 =>
               match parseVal n (skipWs r2) with
               | some (v2, r3) =>
                 match skipWs r3 with
                 | ',' :: r4 =>
                   match parseMembers n (skipWs r4) with
                   | some (ms, r5) => some (JObj.cons k2 v2 ms, r5)
                   | Option.none => none
                 | c2 :: r4 =>
                   if c2 = Char.ofNat 125 then some (JObj.cons k2 v2 JObj.nil, r4) else none
                 | [] => none
               | Option.none => none
             | _ => none
           | Option.none => none) := rfl
      have hlen : k.length < (escapeList k ++ ('"' :: (':' :: (' ' :: (render v ++
          (renderObjTail t ++ (Char.ofNat 125 :: rest))))))).length + 1 := by
        have := escapeList_length k
        simp only [List.length_append, List.length_cons]
        omega
      rw [step, parseStrBody_round k _ _ hlen]
      have hv : fsize v ≤ n := by
        have := osize_pos t
        omega
      have step2 :
          (match some (k, ':' :: (' ' :: (render v ++ (renderObjTail t ++
              (Char.ofNat 125 :: rest))))) with
           | some (k2, r) =>
             match skipWs r with
             | ':' :: r2 =>
               match parseVal n (skipWs r2) with
               | some (v2, r3) =>
                 match skipWs r3 with
                 | ',' :: r4 =>
                   match parseMembers n (skipWs r4) with
                   | some (ms, r5) => some (JObj.cons k2 v2 ms, r5)
                   | Option.none => none
                 | c2 :: r4 =>
                   if c2 = Char.ofNat 125 then some (JObj.cons k2 v2 JObj.nil, r4) else none
                 | [] => none
               | Option.none => none
             | _ => none
           | Option.none => none) =
          (match parseVal n (skipWs (' ' :: (render v ++ (renderObjTail t ++
              (Char.ofNat 125 :: rest))))) with
           | some (v2, r3) =>
             match skipWs r3 with
             | ',' :: r4 =>
               match parseMembers n (skipWs r4) with
               | some (ms, r5) => some (JObj.cons k v2 ms, r5)
               | Option.none => none
             | c2 :: r4 =>
               if c2 = Char.ofNat 125 then some (JObj.cons k v2 JObj.nil, r4) else none
             | [] => none
           | Option.none => none) := rfl
      have hviaN : fsize v ≤ N := by
        have := osize_pos t
        omega
      rw [step2, skipWs_space, skipWs_render,
        ih.1 v n _ hviaN hv (notDigit_objTail t rest)]
      cases t with
      | nil => rfl
      | cons k2 v2 t2 =>
        have step3 :
            (match some (v, renderObjTail (JObj.cons k2 v2 t2) ++
                (Char.ofNat 125 :: rest)) with
             | some (v3, r3) =>
               match skipWs r3 with
               | ',' :: r4 =>
                 match parseMembers n (skipWs r4) with
                 | some (ms, r5) => some (JObj.cons k v3 ms, r5)
                 | Option.none => none
               | c2 :: r4 =>
                 if c2 = Char.ofNat 125 then some (JObj.cons k v3 JObj.nil, r4) else none
               | [] => none
             | Option.none => none) =
            (match parseMembers n (skipWs (' ' :: ((renderStr k2 ++ ':' :: ' ' ::
                render v2 ++ renderObjTail t2) ++ (Char.ofNat 125 :: rest)))) with
             | some (ms, r5) => some (JObj.cons k v ms, r5)
             | Option.none => none) := rfl
        rw [step3, skipWs_space, renderStr]
        simp only [List.append_assoc, List.cons_append, List.singleton_append,
          List.nil_append]
        rw [skipWs_cons _ _ (by decide)]
        have hosz : osize (JObj.cons k2 v2 t2) = fsize v2 + osize t2 + 1 := by
          simp only [osize]
        have hmem := ih.2.1 k2 v2 t2 n rest (by omega) (by omega)
        rw [hmem]
    · -- parseItems on a rendered first element plus rendered tail
      obtain ⟨n, rfl⟩ : ∃ k, m = k + 1 := ⟨m - 1, by omega⟩
      have step : parseItems (n + 1) (render v ++ (renderArrTail t ++ (']' :: rest))) =
          (match parseVal n (render v ++ (renderArrTail t ++ (']' :: rest))) with
           | some (v2, r) =>
             match skipWs r with
             | ',' :: r2 =>
               match parseItems n (skipWs r2) with
               | some (items, r3) => some (JArr.cons v2 items, r3)
               | Option.none => none
             | ']' :: r2 => some (JArr.cons v2 JArr.nil, r2)
             | _ => none
           | Option.none => none) := rfl
      have hv : fsize v ≤ n := by
        have := asize_pos t
        omega
      have hviaN : fsize v ≤ N := by
        have := asize_pos t
        omega
      rw [step, ih.1 v n _ hviaN hv (notDigit_arrTail t rest)]
      cases t with
      | nil => rfl
      | cons v2 t2 =>
        have step2 :
            (match some (v, renderArrTail (JArr.cons v2 t2) ++ (']' :: rest)) with
             | some (v3, r) =>
               match skipWs r with
               | ',' :: r2 =>
                 match parseItems n (skipWs r2) with
                 | some (items, r3) => some (JArr.cons v3 items, r3)
                 | Option.none => none
               | ']' :: r2 => some (JArr.cons v3 JArr.nil, r2)
               | _ => none
             | Option.none => none) =
            (match parseItems n (skipWs (' ' :: ((render v2 ++ renderArrTail t2) ++
                (']' :: rest)))) with
             | some (items, r3) => some (JArr.cons v items, r3)
             | Option.none => none) := rfl
        rw [step2, skipWs_space]
        simp only [List.append_assoc]
        rw [skipWs_render]
        have hasz : asize (JArr.cons v2 t2) = fsize v2 + asize t2 + 1 := by
          simp only [asize]
        have hit := ih.2.2 v2 t2 n rest (by omega) (by omega)
        rw [hit]

theorem parseVal_render (v : JVal) (m : Nat) (rest : List Char) (hm : fsize v ≤ m)
    (hrest : notDigitHead rest) : parseVal m (render v ++ rest) = some (v, rest) :=
  (roundtrip_ind (fsize v)).1 v m rest le_rfl hm hrest

theorem utf8DecodeAux_char (c : Char) (f : Nat) (X : List Nat) :
    utf8DecodeAux (f + 1) (utf8EncodeChar c ++ X) =
      (match utf8DecodeAux f X with
       | some cs => some (c :: cs)
       | Option.none => none) := by
  have hv := char_valid_nat c
  by_cases h1 : c.toNat < 128
  · rw [utf8EncodeChar, if_pos h1, List.cons_append, List.nil_append, utf8DecodeAux,
      if_pos h1, Char.ofNat_toNat]
  by_cases h2 : c.toNat < 2048
  · rw [utf8EncodeChar, if_neg h1, if_pos h2]
    simp only [List.cons_append, List.nil_append]
    rw [utf8DecodeAux, if_neg (by omega), if_neg (by omega), if_pos (by omega)]
    rw [utf8Cont, if_pos (by constructor <;> omega), utf8Cont]
    have he : (192 + c.toNat / 64 - 192) * 64 + (128 + c.toNat % 64 - 128) = c.toNat := by
      omega
    rw [he]
    dsimp only
    rw [Char.ofNat_toNat]
  by_cases h3 : c.toNat < 65536
  · rw [utf8EncodeChar, if_neg h1, if_neg h2, if_pos h3]
    simp only [List.cons_append, List.nil_append]
    rw [utf8DecodeAux, if_neg (by omega), if_neg (by omega), if_neg (by omega),
      if_pos (by omega)]
    rw [utf8Cont, if_pos (by constructor <;> omega),
      utf8Cont, if_pos (by constructor <;> omega), utf8Cont]
    have he : ((224 + c.toNat / 4096 - 224) * 64 + (128 + c.toNat / 64 % 64 - 128)) * 64 +
        (128 + c.toNat % 64 - 128) = c.toNat := by
      omega
    rw [he]
    dsimp only
    rw [if_neg (by omega), Char.ofNat_toNat]
  · rw [utf8EncodeChar, if_neg h1, if_neg h2, if_neg h3]
    simp only [List.cons_append, List.nil_append]
    have hb : 240 + c.toNat / 262144 < 245 := by omega
    rw [utf8DecodeAux, if_neg (by omega), if_neg (by omega), if_neg (by omega),
      if_neg (by omega), if_pos hb]
    rw [utf8Cont, if_pos (by constructor <;> omega),
      utf8Cont, if_pos (by constructor <;> omega),
      utf8Cont, if_pos (by constructor <;> omega), utf8Cont]
    have he : (((240 + c.toNat / 262144 - 240) * 64 + (128 + c.toNat / 4096 % 64 - 128)) *
        64 + (128 + c.toNat / 64 % 64 - 128)) * 64 + (128 + c.toNat % 64 - 128) =
        c.toNat := by
      omega
    rw [he]
    dsimp only
    rw [if_neg (by omega), Char.ofNat_toNat]

theorem utf8Decode_round_aux (cs : List Char) : ∀ f, cs.length < f →
    utf8DecodeAux f (utf8Encode cs) = some cs := by
  induction cs with
  | nil =>
    intro f hf
    obtain ⟨g, rfl⟩ : ∃ g, f = g + 1 := ⟨f - 1, by omega⟩
    rfl
  | cons c cs ih =>
    intro f hf
    obtain ⟨g, rfl⟩ : ∃ g, f = g + 1 := ⟨f - 1, by omega⟩
    rw [utf8Encode, utf8DecodeAux_char c g (utf8Encode cs), ih g (by simpa using hf)]

theorem utf8Encode_length (cs : List Char) : cs.length ≤ (utf8Encode cs).length := by
  induction cs with
  | nil => simp [utf8Encode]
  | cons c cs ih =>
    have h1 : 1 ≤ (utf8EncodeChar c).length := by
      rw [utf8EncodeChar]
      split
      · simp
      split
      · simp
      split
      · simp
      · simp
    simp only [utf8Encode, List.length_append, List.length_cons]
    omega

theorem utf8Decode_round (cs : List Char) : utf8Decode (utf8Encode cs) = some cs := by
  have := utf8Encode_length cs
  exact utf8Decode_round_aux cs _ (by omega)

theorem renderInt_len (i : Int) : 1 ≤ (renderInt i).length := by
  rw [renderInt]
  split
  · simp
  · obtain ⟨d, cs, he, _⟩ := natDec_head i.toNat
    rw [he]
    simp

theorem size_bound_ind (N : Nat) :
    (∀ v, fsize v ≤ N → fsize v ≤ 2 * (render v).length) ∧
    (∀ t, asize t ≤ N → asize t ≤ 2 * (renderArrTail t).length + 2) ∧
    (∀ o, osize o ≤ N → osize o ≤ 2 * (renderObjTail o).length + 2) := by
  induction N with
  | zero =>
    refine ⟨fun v hv => ?_, fun t ht => ?_, fun o ho => ?_⟩
    · have := fsize_pos v
      omega
    · have := asize_pos t
      omega
    · have := osize_pos o
      omega
  | succ N ih =>
    refine ⟨fun v hv => ?_, fun t ht => ?_, fun o ho => ?_⟩
    · cases v with
      | null => simp [render, fsize]
      | bool b => cases b <;> simp [render, fsize]
      | num i =>
        have := renderInt_len i
        simp only [render, fsize]
        omega
      | str s =>
        simp only [render, fsize, renderStr, List.length_cons, List.length_append]
        omega
      | arr a =>
        cases a with
        | nil => simp [render, fsize, asize]
        | cons v t =>
          have h1 := ih.1 v (by simp only [fsize, asize] at hv; omega)
          have h2 := ih.2.1 t (by simp only [fsize, asize] at hv; omega)
          simp only [render, fsize, asize, List.length_cons, List.length_append,
            List.length_singleton] at h1 h2 ⊢
          omega
      | obj o =>
        cases o with
        | nil => simp [render, fsize, osize]
        | cons k v t =>
          have h1 := ih.1 v (by simp only [fsize, osize] at hv; omega)
          have h2 := ih.2.2 t (by simp only [fsize, osize] at hv; omega)
          simp only [render, fsize, osize, renderStr, List.length_cons,
            List.length_append, List.length_singleton] at h1 h2 ⊢
          omega
    · cases t with
      | nil => simp [asize, renderArrTail]
      | cons v t2 =>
        have h1 := ih.1 v (by simp only [asize] at ht; omega)
        have h2 := ih.2.1 t2 (by simp only [asize] at ht; omega)
        simp only [asize, renderArrTail, List.length_cons, List.length_append] at h1 h2 ⊢
        omega
    · cases o with
      | nil => simp [osize, renderObjTail]
      | cons k v t2 =>
        have h1 := ih.1 v (by simp only [osize] at ho; omega)
        have h2 := ih.2.2 t2 (by simp only [osize] at ho; omega)
        simp only [osize, renderObjTail, renderStr, List.length_cons,
          List.length_append] at h1 h2 ⊢
        omega

theorem jsonParse_render (j : JVal) : jsonParse (render j) = some j := by
  have hskip : skipWs (render j) = render j := by
    have := skipWs_render j []
    simpa using this
  have hb : fsize j ≤ 2 * (render j).length + 2 := by
    have := (size_bound_ind (fsize j)).1 j le_rfl
    omega
  rw [jsonParse, hskip]
  have hp := parseVal_render j (2 * (render j).length + 2) [] hb trivial
  rw [List.append_nil] at hp
  rw [hp]
  rfl

theorem unpack_pack (v : PVal) : unpack (pack v) = some (pyToJson v) := by
  rw [pack, unpack, utf8Decode_round]
  exact jsonParse_render (pyToJson v)

theorem render_ne_nil (j : JVal) : 1 ≤ (render j).length := by
  obtain ⟨c, cs, he, _, _⟩ := render_head j
  rw [he]
  simp

theorem pack_pos (v : PVal) : 1 ≤ (pack v).length := by
  rw [pack]
  have h1 := render_ne_nil (pyToJson v)
  have h2 := utf8Encode_length (render (pyToJson v))
  omega

theorem msgOfCode_msgCode (t : MessageType) : msgOfCode (msgCode t) = some t := by
  cases t <;> rfl

/-- C1: decoding the bytes produced by encoding yields the message type
and the normalized payload, leaving any following bytes unread. -/
theorem read_message_pack_message (t : MessageType) (v : PVal) (extra : List Nat)
    (h : (pack v).length < 4294967296) :
    read_message (pack_message t v ++ extra) =
      ReadResult.ok t (pyToJson v) extra := by
  have hpos := pack_pos v
  have step : read_message (pack_message t v ++ extra) =
      (if (1 : Nat) ≠ 1 then ReadResult.ipcError ErrKind.unsupportedVersion
       else
        match msgOfCode (msgCode t) with
        | some mt =>
          if 0 < ((((pack v).length / 16777216 % 256 * 256 + (pack v).length / 65536 % 256) *
              256 + (pack v).length / 256 % 256) * 256 + (pack v).length % 256) then
            if (pack v ++ extra).length < ((((pack v).length / 16777216 % 256 * 256 +
                (pack v).length / 65536 % 256) * 256 + (pack v).length / 256 % 256) * 256 +
                (pack v).length % 256) then
              ReadResult.ipcError ErrKind.incompletePayload
            else
              match unpack ((pack v ++ extra).take ((((pack v).length / 16777216 % 256 * 256 +
                  (pack v).length / 65536 % 256) * 256 + (pack v).length / 256 % 256) * 256 +
                  (pack v).length % 256)) with
              | some payload =>
                ReadResult.ok mt payload ((pack v ++ extra).drop
                  ((((pack v).length / 16777216 % 256 * 256 + (pack v).length / 65536 % 256) *
                    256 + (pack v).length / 256 % 256) * 256 + (pack v).length % 256))
              | none => ReadResult.ipcError ErrKind.undecodablePayload
          else ReadResult.ok mt JVal.null (pack v ++ extra)
        | none => ReadResult.ipcError ErrKind.unknownType) := rfl
  have hlen : (((pack v).length / 16777216 % 256 * 256 + (pack v).length / 65536 % 256) *
      256 + (pack v).length / 256 % 256) * 256 + (pack v).length % 256 =
      (pack v).length := by
    omega
  rw [step, if_neg (by omega), msgOfCode_msgCode t, hlen]
  dsimp only
  rw [if_pos (by omega)]
  have hge : ¬ (pack v ++ extra).length < (pack v).length := by
    simp only [List.length_append]
    omega
  rw [if_neg hge, List.take_left, List.drop_left, unpack_pack v]


/-- C1 witness: a concrete dict payload with a set value and one trailing byte. -/
theorem read_message_pack_message_witness :
    (pack (PVal.dict (PObj.cons [Char.ofNat 97]
        (PVal.set (PArr.cons (PVal.num 7) PArr.nil)) PObj.nil))).length < 4294967296 ∧
    read_message (pack_message MessageType.COMMAND
        (PVal.dict (PObj.cons [Char.ofNat 97]
          (PVal.set (PArr.cons (PVal.num 7) PArr.nil)) PObj.nil)) ++ [9]) =
      ReadResult.ok MessageType.COMMAND
        (pyToJson (PVal.dict (PObj.cons [Char.ofNat 97]
          (PVal.set (PArr.cons (PVal.num 7) PArr.nil)) PObj.nil))) [9] :=
  ⟨by decide, read_message_pack_message _ _ _ (by decide)⟩


theorem read_message_cons (v t l0 l1 l2 l3 : Nat) (rest : List Nat) :
    read_message (v :: t :: l0 :: l1 :: l2 :: l3 :: rest) =
      (if v ≠ 1 then ReadResult.ipcError ErrKind.unsupportedVersion
       else
        match msgOfCode t with
        | some mt =>
          if 0 < (((l0 * 256 + l1) * 256 + l2) * 256 + l3) then
            if rest.length < (((l0 * 256 + l1) * 256 + l2) * 256 + l3) then
              ReadResult.ipcError ErrKind.incompletePayload
            else
              match unpack (rest.take (((l0 * 256 + l1) * 256 + l2) * 256 + l3)) with
              | some payload =>
                ReadResult.ok mt payload
                  (rest.drop (((l0 * 256 + l1) * 256 + l2) * 256 + l3))
              | none => ReadResult.ipcError ErrKind.undecodablePayload
          else ReadResult.ok mt JVal.null rest
        | none => ReadResult.ipcError ErrKind.unknownType) := rfl

/-- C2: totality of decoding and the named failure mode of every branch:
clean EOF on an empty stream, incomplete header, version gate before
everything else, unknown-type gate, incomplete payload, undecodable
payload characterized as invalid UTF-8 or invalid JSON, and the
zero-length frame decoding to a null payload without consulting the
payload parser. -/
theorem read_message_failure_modes :
    (read_message [] = ReadResult.cleanEOF) ∧
    (∀ s : List Nat, 0 < s.length → s.length < 6 →
      read_message s = ReadResult.ipcError ErrKind.incompleteHeader) ∧
    (∀ v t l0 l1 l2 l3 : Nat, ∀ rest : List Nat, v ≠ 1 →
      read_message (v :: t :: l0 :: l1 :: l2 :: l3 :: rest) =
        ReadResult.ipcError ErrKind.unsupportedVersion) ∧
    (∀ t l0 l1 l2 l3 : Nat, ∀ rest : List Nat, msgOfCode t = none →
      read_message (1 :: t :: l0 :: l1 :: l2 :: l3 :: rest) =
        ReadResult.ipcError ErrKind.unknownType) ∧
    (∀ t l0 l1 l2 l3 : Nat, ∀ mt, ∀ rest : List Nat, msgOfCode t = some mt →
      0 < (((l0 * 256 + l1) * 256 + l2) * 256 + l3) →
      rest.length < (((l0 * 256 + l1) * 256 + l2) * 256 + l3) →
      read_message (1 :: t :: l0 :: l1 :: l2 :: l3 :: rest) =
        ReadResult.ipcError ErrKind.incompletePayload) ∧
    (∀ t l0 l1 l2 l3 : Nat, ∀ mt, ∀ rest : List Nat, msgOfCode t = some mt →
      0 < (((l0 * 256 + l1) * 256 + l2) * 256 + l3) →
      ¬ rest.length < (((l0 * 256 + l1) * 256 + l2) * 256 + l3) →
      unpack (rest.take (((l0 * 256 + l1) * 256 + l2) * 256 + l3)) = none →
      read_message (1 :: t :: l0 :: l1 :: l2 :: l3 :: rest) =
        ReadResult.ipcError ErrKind.undecodablePayload) ∧
    (∀ bs : List Nat, unpack bs = none ↔
      (utf8Decode bs = none ∨ ∃ cs, utf8Decode bs = some cs ∧ jsonParse cs = none)) ∧
    (∀ t : Nat, ∀ mt, ∀ rest : List Nat, msgOfCode t = some mt →
      read_message (1 :: t :: 0 :: 0 :: 0 :: 0 :: rest) =
        ReadResult.ok mt JVal.null rest) ∧
    (∀ s : List Nat, read_message s = ReadResult.cleanEOF ∨
      (∃ k, read_message s = ReadResult.ipcError k) ∨
      (∃ mt p r, read_message s = ReadResult.ok mt p r)) := by
  refine ⟨rfl, ?_, ?_, ?_, ?_, ?_, ?_, ?_, ?_⟩
  · intro s h1 h2
    match s with
    | [_] => rfl
    | [_, _] => rfl
    | [_, _, _] => rfl
    | [_, _, _, _] => rfl
    | [_, _, _, _, _] => rfl
    | [] => simp at h1
    | _ :: _ :: _ :: _ :: _ :: _ :: _ => exact absurd h2 (by simp)
  · intro v t l0 l1 l2 l3 rest hv
    rw [read_message_cons, if_pos hv]
  · intro t l0 l1 l2 l3 rest ht
    rw [read_message_cons, if_neg (by omega), ht]
  · intro t l0 l1 l2 l3 mt rest ht h0 hlt
    rw [read_message_cons, if_neg (by omega), ht]
    dsimp only
    rw [if_pos h0, if_pos hlt]
  · intro t l0 l1 l2 l3 mt rest ht h0 hge hu
    rw [read_message_cons, if_neg (by omega), ht]
    dsimp only
    rw [if_pos h0, if_neg hge, hu]
  · intro bs
    rw [unpack]
    cases hu : utf8Decode bs with
    | none => simp
    | some cs =>
      simp only [hu]
      constructor
      · intro hj
        exact Or.inr ⟨cs, rfl, hj⟩
      · rintro (h | ⟨cs2, hcs2, hj⟩)
        · exact absurd h (by simp)
        · cases hcs2
          exact hj
  · intro t mt rest ht
    rw [read_message_cons, if_neg (by omega), ht]
    rfl
  · intro s
    cases hr : read_message s with
    | cleanEOF => exact Or.inl rfl
    | ipcError k => exact Or.inr (Or.inl ⟨k, rfl⟩)
    | ok mt p r => exact Or.inr (Or.inr ⟨mt, p, r, rfl⟩)

/-- C2 witness: one concrete stream per failure mode plus a zero-length
frame with trailing garbage decoding to a null payload. -/
theorem read_message_failure_modes_witness :
    read_message [9, 1, 0, 0, 0, 0] = ReadResult.ipcError ErrKind.unsupportedVersion ∧
    read_message [1] = ReadResult.ipcError ErrKind.incompleteHeader ∧
    read_message [1, 3, 0, 0, 0, 0] = ReadResult.ipcError ErrKind.unknownType ∧
    read_message [1, 1, 0, 0, 0, 5, 65] = ReadResult.ipcError ErrKind.incompletePayload ∧
    read_message [1, 1, 0, 0, 0, 1, 255] = ReadResult.ipcError ErrKind.undecodablePayload ∧
    read_message [1, 1, 0, 0, 0, 2, 110, 117] =
      ReadResult.ipcError ErrKind.undecodablePayload ∧
    read_message [1, 240, 0, 0, 0, 0, 99] =
      ReadResult.ok MessageType.KEEPALIVE JVal.null [99] := by
  refine ⟨read_message_failure_modes.2.2.1 9 1 0 0 0 0 [] (by decide),
    read_message_failure_modes.2.1 [1] (by decide) (by decide),
    read_message_failure_modes.2.2.2.1 3 0 0 0 0 [] (by decide),
    read_message_failure_modes.2.2.2.2.1 1 0 0 0 5 MessageType.COMMAND [65] (by decide)
      (by decide) (by decide),
    read_message_failure_modes.2.2.2.2.2.1 1 0 0 0 1 MessageType.COMMAND [255] (by decide)
      (by decide) (by decide) (by rfl),
    read_message_failure_modes.2.2.2.2.2.1 1 0 0 0 2 MessageType.COMMAND [110, 117]
      (by decide) (by decide) (by decide) (by rfl),
    read_message_failure_modes.2.2.2.2.2.2.2.1 240 MessageType.KEEPALIVE [99] (by decide)⟩

/-- C10: the encoder never produces an empty payload (None serializes as
the four bytes of null), so no frame it produces carries a zero length
field. -/
theorem pack_never_empty :
    pack PVal.none = [110, 117, 108, 108] ∧
    (∀ v : PVal, 0 < (pack v).length) ∧
    (∀ (t : MessageType) (v : PVal), (pack v).length < 4294967296 →
      lenField (pack_message t v) = (pack v).length ∧ lenField (pack_message t v) ≠ 0) := by
  refine ⟨rfl, fun v => pack_pos v, fun t v h => ?_⟩
  have hpos := pack_pos v
  have step : lenField (pack_message t v) =
      (((pack v).length / 16777216 % 256 * 256 + (pack v).length / 65536 % 256) * 256 +
        (pack v).length / 256 % 256) * 256 + (pack v).length % 256 := rfl
  constructor
  · rw [step]
    omega
  · rw [step]
    omega

/-- C10 witness at the None payload. -/
theorem pack_never_empty_witness :
    lenField (pack_message MessageType.COMMAND PVal.none) = 4 ∧ (4 : Nat) ≠ 0 :=
  ⟨by
    have := (pack_never_empty.2.2 MessageType.COMMAND PVal.none (by decide)).1
    simpa using this,
   by decide⟩

/-! ## Session manager lemmas -/

theorem alGet_alSet_same {α : Type} (l : List (String × α)) (k : String) (v : α) :
    alGet (alSet l k v) k = some v := by
  induction l with
  | nil => simp [alSet, alGet]
  | cons kv t ih =>
    by_cases h : kv.1 = k
    · simp [alSet, alGet, h]
    · simp only [alSet, alGet]
      rw [if_neg h, alGet, if_neg h, ih]

theorem alGet_alSet_other {α : Type} (l : List (String × α)) (k x : String) (v : α)
    (h : k ≠ x) : alGet (alSet l k v) x = alGet l x := by
  induction l with
  | nil => simp [alSet, alGet, h]
  | cons kv t ih =>
    by_cases h2 : kv.1 = k
    · simp only [alSet]
      rw [if_pos h2, alGet, alGet]
      have : kv.1 ≠ x := by rw [h2]; exact h
      rw [if_neg this, if_neg this]
    · simp only [alSet]
      rw [if_neg h2, alGet, alGet]
      by_cases h3 : kv.1 = x
      · rw [if_pos h3, if_pos h3]
      · rw [if_neg h3, if_neg h3, ih]

theorem alGet_filter {α : Type} (l : List (String × α)) (p : String × α → Bool)
    (x : String) (v : α) (h : alGet (l.filter p) x = some v) : p (x, v) = true := by
  induction l with
  | nil => simp [alGet] at h
  | cons kv t ih =>
    by_cases hp : p kv = true
    · rw [List.filter_cons_of_pos hp] at h
      rw [alGet] at h
      by_cases hk : kv.1 = x
      · rw [if_pos hk] at h
        injection h with hv
        have he : (x, v) = kv := by
          rw [← hk, ← hv]
        rw [he]
        exact hp
      · rw [if_neg hk] at h
        exact ih h
    · rw [List.filter_cons_of_neg (by simpa using hp)] at h
      exact ih h

/-- C4 counterexample: a known id is returned without its timestamp being
touched, and a given-but-unknown id is reused as the new session id
instead of the freshly minted one. -/
theorem get_or_create_session_counterexample :
    ((get_or_create_session ⟨[("A", ⟨"A", [], 0⟩)], [], true, some false⟩
        (some "A") 10 "F").1.last_active = 0 ∧
      (0 : Nat) ≠ 10) ∧
    ((get_or_create_session ⟨[("A", ⟨"A", [], 0⟩)], [], true, some false⟩
        (some "B") 10 "F").1.session_id = "B" ∧
      ("B" : String) ≠ "F") :=
  ⟨⟨rfl, by decide⟩, ⟨rfl, by decide⟩⟩

/-- C4 amended: the sweep still runs first and removes exactly the
sessions idle beyond the one hour timeout, and a known truthy id is
returned untouched; but an unknown given id is reused as the new session
id (only an omitted or empty id uses the minted uuid), and the returned
existing session keeps its old last_active. -/
theorem get_or_create_session_spec (m : REPLManager) (now : Nat) (fresh : String) :
    (∀ sid id s,
      alGet (get_or_create_session m sid now fresh).2.sessions id = some s →
      now - s.last_active ≤ SESSION_TIMEOUT) ∧
    (∀ id s, ¬ id.isEmpty →
      alGet (cleanup_inactive_sessions m now).sessions id = some s →
      get_or_create_session m (some id) now fresh = (s, cleanup_inactive_sessions m now)) ∧
    (∀ id, ¬ id.isEmpty →
      alGet (cleanup_inactive_sessions m now).sessions id = none →
      get_or_create_session m (some id) now fresh =
        (mkSession id m.default_locals now,
          { cleanup_inactive_sessions m now with
            sessions := alSet (cleanup_inactive_sessions m now).sessions id
              (mkSession id m.default_locals now) })) ∧
    (get_or_create_session m none now fresh =
      (mkSession fresh m.default_locals now,
        { cleanup_inactive_sessions m now with
          sessions := alSet (cleanup_inactive_sessions m now).sessions fresh
            (mkSession fresh m.default_locals now) })) := by
  refine ⟨?_, ?_, ?_, ?_⟩
  · intro sid id s h
    have key : ∀ id2 s2,
        alGet (cleanup_inactive_sessions m now).sessions id2 = some s2 →
        now - s2.last_active ≤ SESSION_TIMEOUT := by
      intro id2 s2 h2
      have := alGet_filter m.sessions
        (fun kv => decide (now - kv.2.last_active ≤ SESSION_TIMEOUT)) id2 s2 h2
      simpa using this
    match sid with
    | none =>
      simp only [get_or_create_session, createSession] at h
      by_cases he : fresh = id
      · subst he
        rw [alGet_alSet_same] at h
        cases h
        simp [mkSession]
      · rw [alGet_alSet_other _ _ _ _ he] at h
        exact key id s h
    | some sid2 =>
      simp only [get_or_create_session] at h
      by_cases hemp : sid2.isEmpty
      · rw [if_pos hemp] at h
        simp only [createSession] at h
        by_cases he : fresh = id
        · subst he
          rw [alGet_alSet_same] at h
          cases h
          simp [mkSession]
        · rw [alGet_alSet_other _ _ _ _ he] at h
          exact key id s h
      · rw [if_neg hemp] at h
        cases hl : alGet (cleanup_inactive_sessions m now).sessions sid2 with
        | some s2 =>
          rw [hl] at h
          exact key id s h
        | none =>
          rw [hl] at h
          simp only [createSession] at h
          by_cases he : sid2 = id
          · subst he
            rw [alGet_alSet_same] at h
            cases h
            simp [mkSession]
          · rw [alGet_alSet_other _ _ _ _ he] at h
            exact key id s h
  · intro id s hemp hget
    simp only [get_or_create_session]
    rw [if_neg hemp, hget]
  · intro id hemp hget
    simp only [get_or_create_session]
    rw [if_neg hemp, hget]
    rfl
  · rfl

/-- C4 witness: concrete sweep, lookup and creation. -/
theorem get_or_create_session_spec_witness :
    get_or_create_session ⟨[("A", ⟨"A", [], 5⟩)], [], true, some false⟩
        (some "A") 10 "F" =
      (⟨"A", [], 5⟩, cleanup_inactive_sessions
        ⟨[("A", ⟨"A", [], 5⟩)], [], true, some false⟩ 10) :=
  (get_or_create_session_spec ⟨[("A", ⟨"A", [], 5⟩)], [], true, some false⟩ 10 "F").2.1
    "A" ⟨"A", [], 5⟩ (by decide) (by rfl)

/-- C6: while the manager is disabled every request type is answered with
the structured not-enabled error and the manager state, in particular its
session map, is returned unchanged. -/
theorem handle_message_disabled (m : REPLManager) (t : MessageType) (p : ReplPayload)
    (now : Nat) (fresh : String) (h : m.enabled = false) :
    handle_message m t p now fresh =
      (Except.ok (Resp.err "REPL not enabled. Run start_repl_server first."), m) ∧
    strContains "REPL not enabled. Run start_repl_server first." "not enabled" = true := by
  constructor
  · rw [handle_message, if_pos h]
  · decide

/-- C6 witness at a concrete disabled manager and an eval request. -/
theorem handle_message_disabled_witness :
    handle_message ⟨[], [], false, none⟩ MessageType.REPL_EVAL
        ⟨some (Code.expr (Expr.lit 1)), none, none⟩ 0 "F" =
      (Except.ok (Resp.err "REPL not enabled. Run start_repl_server first."),
        (⟨[], [], false, none⟩ : REPLManager)) ∧
    strContains "REPL not enabled. Run start_repl_server first." "not enabled" = true :=
  handle_message_disabled ⟨[], [], false, none⟩ MessageType.REPL_EVAL
    ⟨some (Code.expr (Expr.lit 1)), none, none⟩ 0 "F" rfl

/-- C5 counterexample: with the process-wide lock condition set (the qtile
instance reports locked), a REPL_EVAL request is answered with the
locked-session error, not the answer produced when the gate is clear. -/
theorem locked_repl_counterexample :
    (handle_message ⟨[], [], true, some true⟩ MessageType.REPL_EVAL
        ⟨some (Code.expr (Expr.lit 5)), none, none⟩ 0 "F").1 =
      Except.ok (Resp.err "Session is locked.") ∧
    (handle_message ⟨[], [], true, some false⟩ MessageType.REPL_EVAL
        ⟨some (Code.expr (Expr.lit 5)), none, none⟩ 0 "F").1 =
      Except.ok (Resp.evalOut "F" "5") ∧
    Resp.err "Session is locked." ≠ Resp.evalOut "F" "5" :=
  ⟨rfl, rfl, by decide⟩

/-- C5 amended: while the gate is set the connection loop refuses COMMAND
with the locked error payload without invoking the handler, still answers
KEEPALIVE with KEEPALIVE_ACK and closes on CLOSE, and forwards REPL
frames to the handler regardless of its own gate; the session manager
itself, however, answers every REPL request with a locked-session error
while the qtile instance reports locked. -/
theorem lock_gate_spec :
    (∀ (π α : Type) (h1 h2 : π → α) (rH : Option (MessageType → π → Resp)) (p : π),
      serverDispatch true h1 rH MessageType.COMMAND p =
        ServerAction.sendFrame MessageType.COMMAND_RESPONSE FramePayload.lockedErr ∧
      serverDispatch true h1 rH MessageType.COMMAND p =
        serverDispatch true h2 rH MessageType.COMMAND p) ∧
    (∀ (π α : Type) (locked : Bool) (h : π → α) (rH : Option (MessageType → π → Resp))
      (p : π), serverDispatch locked h rH MessageType.KEEPALIVE p =
        ServerAction.sendFrame MessageType.KEEPALIVE_ACK FramePayload.pnone) ∧
    (∀ (π α : Type) (locked : Bool) (h : π → α) (rH : Option (MessageType → π → Resp))
      (p : π), serverDispatch locked h rH MessageType.CLOSE p = ServerAction.closed) ∧
    (∀ (π α : Type) (h : π → α) (rH : Option (MessageType → π → Resp)) (t : MessageType)
      (p : π),
      t = MessageType.REPL_EVAL ∨ t = MessageType.REPL_COMPLETE ∨
        t = MessageType.REPL_SESSION_START ∨ t = MessageType.REPL_SESSION_END →
      serverDispatch true h rH t p = serverDispatch false h rH t p) ∧
    (∀ (m : REPLManager) (t : MessageType) (p : ReplPayload) (now : Nat) (fresh : String),
      m.enabled = true → m.qtile = some true →
      handle_message m t p now fresh = (Except.ok (Resp.err "Session is locked."), m)) := by
  refine ⟨?_, ?_, ?_, ?_, ?_⟩
  · intro π α h1 h2 rH p
    constructor <;> rfl
  · intro π α locked h rH p
    rfl
  · intro π α locked h rH p
    rfl
  · intro π α h rH t p ht
    rcases ht with rfl | rfl | rfl | rfl <;> rfl
  · intro m t p now fresh he hq
    rw [handle_message, if_neg (by rw [he]; simp)]
    rw [hq]
    rfl

/-- C5 witness: concrete dispatches and a concrete locked manager. -/
theorem lock_gate_spec_witness :
    serverDispatch true (fun _ : Unit => (0 : Nat)) none MessageType.COMMAND () =
      ServerAction.sendFrame MessageType.COMMAND_RESPONSE FramePayload.lockedErr ∧
    serverDispatch true (fun _ : Unit => (0 : Nat)) none MessageType.KEEPALIVE () =
      ServerAction.sendFrame MessageType.KEEPALIVE_ACK FramePayload.pnone ∧
    serverDispatch true (fun _ : Unit => (0 : Nat)) none MessageType.CLOSE () =
      ServerAction.closed ∧
    serverDispatch true (fun _ : Unit => (0 : Nat)) none MessageType.REPL_EVAL () =
      serverDispatch false (fun _ : Unit => (0 : Nat)) none MessageType.REPL_EVAL () ∧
    handle_message ⟨[], [], true, some true⟩ MessageType.REPL_COMPLETE
        ⟨none, some "qti", none⟩ 0 "F" =
      (Except.ok (Resp.err "Session is locked."), ⟨[], [], true, some true⟩) :=
  ⟨(lock_gate_spec.1 Unit Nat (fun _ => 0) (fun _ => 0) none ()).1,
    lock_gate_spec.2.1 Unit Nat true (fun _ => 0) none (),
    lock_gate_spec.2.2.1 Unit Nat true (fun _ => 0) none (),
    lock_gate_spec.2.2.2.1 Unit Nat (fun _ => 0) none MessageType.REPL_EVAL ()
      (Or.inl rfl),
    lock_gate_spec.2.2.2.2 ⟨[], [], true, some true⟩ MessageType.REPL_COMPLETE
      ⟨none, some "qti", none⟩ 0 "F" rfl rfl⟩

/-- C9 counterexample: with no REPL handler installed, a REPL_SESSION_END
frame is answered with a REPL_EVAL_RESPONSE carrying the not-enabled
error, so a response frame is written. -/
theorem session_end_response_counterexample :
    serverDispatch false (fun _ : Unit => (0 : Nat)) none MessageType.REPL_SESSION_END () =
      ServerAction.sendFrame MessageType.REPL_EVAL_RESPONSE
        (FramePayload.replResp (Resp.err notEnabledMsg)) ∧
    ServerAction.sendFrame (α := Nat) MessageType.REPL_EVAL_RESPONSE
        (FramePayload.replResp (Resp.err notEnabledMsg)) ≠ ServerAction.noResponse :=
  ⟨rfl, by decide⟩

/-- C9 amended: with a REPL handler installed a session-end frame produces
no response (the delegated result is discarded), while with no handler it
is answered with the not-enabled error on REPL_EVAL_RESPONSE. -/
theorem session_end_response_spec :
    (∀ (π α : Type) (locked : Bool) (handler : π → α)
      (h : MessageType → π → Resp) (p : π),
      serverDispatch locked handler (some h) MessageType.REPL_SESSION_END p =
        ServerAction.noResponse) ∧
    (∀ (π α : Type) (locked : Bool) (handler : π → α) (p : π),
      serverDispatch locked handler none MessageType.REPL_SESSION_END p =
        ServerAction.sendFrame MessageType.REPL_EVAL_RESPONSE
          (FramePayload.replResp (Resp.err notEnabledMsg))) := by
  constructor
  · intro π α locked handler h p
    rfl
  · intro π α locked handler p
    rfl

/-- C9 witness: concrete dispatches with and without handler. -/
theorem session_end_response_spec_witness :
    serverDispatch true (fun _ : Unit => (0 : Nat)) (some (fun _ _ => Resp.ended))
        MessageType.REPL_SESSION_END () = ServerAction.noResponse ∧
    serverDispatch true (fun _ : Unit => (0 : Nat)) none MessageType.REPL_SESSION_END () =
      ServerAction.sendFrame MessageType.REPL_EVAL_RESPONSE
        (FramePayload.replResp (Resp.err notEnabledMsg)) :=
  ⟨session_end_response_spec.1 Unit Nat true (fun _ => 0) (fun _ _ => Resp.ended) (),
    session_end_response_spec.2 Unit Nat true (fun _ => 0) ()⟩

theorem strContains_of_pre (hay pat : String)
    (h : pat.data.isPrefixOf hay.data = true) : strContains hay pat = true := by
  rw [strContains, listSub]
  apply List.any_eq_true.mpr
  refine ⟨0, ?_, by simpa using h⟩
  simp

theorem strContains_traceback (e : PyErr) : strContains (tracebackOf e) "Traceback" = true := by
  apply strContains_of_pre
  rw [List.isPrefixOf_iff_prefix, tracebackOf.eq_def]
  have hd : ∀ a b : String, (a ++ b).data = a.data ++ b.data := fun a b => String.data_append a b
  rw [hd]
  exact List.IsPrefix.trans (by decide) (List.prefix_append _ _)

/-- C7: one evaluation never escapes to the caller: the host stream is
returned untouched on every path, an exception is rendered as a traceback
into the returned output with the namespace unchanged, an unknown name is
likewise rendered, everything printed by a successful expression lands in
the returned text, and the session evaluates normally afterwards. -/
theorem evaluate_code_spec :
    (∀ (s : REPLSession) (c : Code) (now : Nat) (host : String),
      (evaluate_code_streams s c now host).2 = host) ∧
    (∀ (s : REPLSession) (now : Nat) (msg : String),
      (evaluate_code s (Code.raiseE msg) now).1 = tracebackOf (PyErr.exc msg) ∧
      strContains (tracebackOf (PyErr.exc msg)) "Traceback" = true ∧
      (evaluate_code s (Code.raiseE msg) now).2.locals = s.locals) ∧
    (∀ (s : REPLSession) (now : Nat) (x : String), alGet s.locals x = none →
      (evaluate_code s (Code.expr (Expr.name x)) now).1 = tracebackOf (PyErr.nameErr x)) ∧
    (∀ (s : REPLSession) (now : Nat) (e : Expr) (v : Val) (out : String),
      evalExpr e s.locals = Except.ok (v, out) →
      (evaluate_code s (Code.expr e) now).1 =
        out ++ (if isNoneV v then "" else pyRepr v ++ "\n")) ∧
    (∀ (s : REPLSession) (now now2 : Nat) (msg : String),
      (evaluate_code (evaluate_code s (Code.raiseE msg) now).2
        (Code.expr (Expr.lit 5)) now2).1 = "5\n") := by
  refine ⟨fun s c now host => rfl, ?_, ?_, ?_, ?_⟩
  · intro s now msg
    exact ⟨rfl, strContains_traceback (PyErr.exc msg), rfl⟩
  · intro s now x h
    rw [evaluate_code]
    simp only [compileExpr, evalExpr, h]
  · intro s now e v out h
    rw [evaluate_code]
    simp only [compileExpr, h]
  · intro s now now2 msg
    rfl

/-- C7 witness: a concrete raise, unknown name, print capture and recovery. -/
theorem evaluate_code_spec_witness :
    (evaluate_code_streams (mkSession "S" [] 0) (Code.raiseE "boom") 1 "HOST").2 = "HOST" ∧
    (evaluate_code (mkSession "S" [] 0) (Code.raiseE "boom") 1).1 =
      tracebackOf (PyErr.exc "boom") ∧
    (evaluate_code (mkSession "S" [] 0) (Code.expr (Expr.name "zzz")) 1).1 =
      tracebackOf (PyErr.nameErr "zzz") ∧
    (evaluate_code (mkSession "S" [] 0) (Code.expr (Expr.printE (Expr.strLit "hi"))) 1).1 =
      "hi\n" ++ (if isNoneV Val.vnone then "" else pyRepr Val.vnone ++ "\n") ∧
    (evaluate_code (evaluate_code (mkSession "S" [] 0) (Code.raiseE "boom") 1).2
      (Code.expr (Expr.lit 5)) 2).1 = "5\n" :=
  ⟨evaluate_code_spec.1 (mkSession "S" [] 0) (Code.raiseE "boom") 1 "HOST",
    (evaluate_code_spec.2.1 (mkSession "S" [] 0) 1 "boom").1,
    evaluate_code_spec.2.2.1 (mkSession "S" [] 0) 1 "zzz" (by rfl),
    evaluate_code_spec.2.2.2.1 (mkSession "S" [] 0) 1 (Expr.printE (Expr.strLit "hi"))
      Val.vnone "hi\n" (by rfl),
    evaluate_code_spec.2.2.2.2 (mkSession "S" [] 0) 1 2 "boom"⟩

/-- C8 counterexample: completion of a text that is not a bare identifier
returns the names matching only the trailing identifier, not the whole
text as the claim states; here "f(qti" yields "qtile" although the text is
not a prefix of it. -/
theorem get_completions_counterexample :
    get_completions "f(qti" [("qtile", Val.vstr "x")] = Except.ok ["qtile"] ∧
    strPre "f(qti" "qtile" = false ∧ (["qtile"] : List String) ≠ [] :=
  ⟨by rfl, by decide, by decide⟩

/-- C8 amended: completion never raises except when the text has no
trailing word-or-dot character and the namespace is non-empty, where the
startswith(None) TypeError escapes; a dotless text completes against the
namespace using its trailing identifier as the prefix; a dotted text
evaluates the parsed base read-only and returns its matching attribute
names with a parenthesis marker for callables, and every base evaluation
error yields the empty list. -/
theorem get_completions_spec :
    (∀ (text : String) (ns : NS), parse_completion_expr text = none →
      text.data.contains '.' = false → ns ≠ [] →
      get_completions text ns = Except.error (PyErr.typeErr
        "startswith first arg must be str or a tuple of str, not NoneType")) ∧
    (∀ (text : String) (ns : NS), parse_completion_expr text = none →
      text.data.contains '.' = false → ns = [] →
      get_completions text ns = Except.ok []) ∧
    (∀ (text : String) (ns : NS) (e a : String),
      parse_completion_expr text = some (e, a) → text.data.contains '.' = false →
      get_completions text ns =
        Except.ok ((ns.filter (fun kv => strPre e kv.1)).map (fun kv => kv.1))) ∧
    (∀ (text : String) (ns : NS), text.data.contains '.' = true →
      parse_completion_expr text = none → get_completions text ns = Except.ok []) ∧
    (∀ (text : String) (ns : NS) (e a : String) (err : PyErr),
      text.data.contains '.' = true → parse_completion_expr text = some (e, a) →
      evalName e ns = Except.error err → get_completions text ns = Except.ok []) ∧
    (∀ (text : String) (ns : NS) (e a : String) (base : Val),
      text.data.contains '.' = true → parse_completion_expr text = some (e, a) →
      evalName e ns = Except.ok base →
      get_completions text ns = Except.ok
        ((((dirOf base).filter (fun at2 => strPre a at2)).map
          (fun at2 => e ++ "." ++ at2 ++
            (if callableV (getattrD base at2) then "(" else ""))).filter
              (fun o => o.isEmpty = false))) := by
  refine ⟨?_, ?_, ?_, ?_, ?_, ?_⟩
  · intro text ns hp hd hne
    rw [get_completions]
    simp only [hp, hd]
    rw [if_pos trivial]
    cases ns with
    | nil => exact absurd rfl hne
    | cons kv rest => rfl
  · intro text ns hp hd hni
    subst hni
    rw [get_completions]
    simp only [hp, hd]
    rfl
  · intro text ns e a hp hd
    rw [get_completions]
    simp only [hp, hd]
    rw [if_pos trivial]
  · intro text ns hd hp
    rw [get_completions]
    simp only [hp, hd]
    rw [if_neg (by simp)]
  · intro text ns e a err hd hp he
    rw [get_completions]
    simp only [hp, hd, he]
    rw [if_neg (by simp)]
  · intro text ns e a base hd hp he
    rw [get_completions]
    simp only [hp, hd, he]
    rw [if_neg (by simp)]

/-- C8 witness: the specification examples, including the TypeError on
completing an empty text against a non-empty namespace, the qti pair and
the dummy.method callable marker. -/
theorem get_completions_spec_witness :
    get_completions "" [("x", Val.vint 0)] = Except.error (PyErr.typeErr
      "startswith first arg must be str or a tuple of str, not NoneType") ∧
    get_completions "" [] = Except.ok [] ∧
    get_completions "qti" [("qtile", Val.vstr "dummy"), ("qtiles", Val.vint 123)] =
      Except.ok ((([("qtile", Val.vstr "dummy"), ("qtiles", Val.vint 123)] : NS).filter
        (fun kv => strPre "qti" kv.1)).map (fun kv => kv.1)) ∧
    get_completions "invalid..expr" [] = Except.ok [] ∧
    get_completions "dummy.me"
        [("dummy", Val.vobj [("method", Val.vfun "method"), ("val", Val.vint 42)])] =
      Except.ok ((((dirOf (Val.vobj [("method", Val.vfun "method"),
        ("val", Val.vint 42)])).filter (fun at2 => strPre "me" at2)).map
          (fun at2 => "dummy" ++ "." ++ at2 ++
            (if callableV (getattrD (Val.vobj [("method", Val.vfun "method"),
              ("val", Val.vint 42)]) at2) then "(" else ""))).filter
                (fun o => o.isEmpty = false)) :=
  ⟨get_completions_spec.1 "" [("x", Val.vint 0)] (by rfl) (by rfl) (by simp),
    get_completions_spec.2.1 "" [] (by rfl) (by rfl) rfl,
    get_completions_spec.2.2.1 "qti" _ "qti" "" (by rfl) (by rfl),
    get_completions_spec.2.2.2.2.1 "invalid..expr" [] "invalid." "expr" PyErr.synErr
      (by rfl) (by rfl) (by rfl),
    get_completions_spec.2.2.2.2.2 "dummy.me" _ "dummy" "me" _ (by rfl) (by rfl) (by rfl)⟩

/-- C3: bindings made by an evaluation persist across later evaluations in
the same session, and a distinct session created from the same defaults
does not see them: evaluating y = 456 then y in session A answers 456,
while evaluating y in fresh session B answers a NameError traceback that
does not contain 456. -/
theorem session_statefulness (d : NS) (now : Nat)
    (hy : alGet (nsMerge make_safer_env d) "y" = none) :
    (handle_message
      (handle_message ⟨[], d, true, some false⟩ MessageType.REPL_EVAL
        ⟨some (Code.assign "y" (Expr.lit 456)), none, some "A"⟩ now "F").2
      MessageType.REPL_EVAL ⟨some (Code.expr (Expr.name "y")), none, some "A"⟩
      now "F").1 = Except.ok (Resp.evalOut "A" "456") ∧
    strContains "456" "456" = true ∧
    (handle_message
      (handle_message
        (handle_message ⟨[], d, true, some false⟩ MessageType.REPL_EVAL
          ⟨some (Code.assign "y" (Expr.lit 456)), none, some "A"⟩ now "F").2
        MessageType.REPL_EVAL ⟨some (Code.expr (Expr.name "y")), none, some "A"⟩
        now "F").2
      MessageType.REPL_EVAL ⟨some (Code.expr (Expr.name "y")), none, some "B"⟩
      now "F").1 =
      Except.ok (Resp.evalOut "B" (pyStrip (tracebackOf (PyErr.nameErr "y")))) ∧
    strContains (pyStrip (tracebackOf (PyErr.nameErr "y"))) "456" = false := by
  have hstep1 : handle_message ⟨[], d, true, some false⟩ MessageType.REPL_EVAL
      ⟨some (Code.assign "y" (Expr.lit 456)), none, some "A"⟩ now "F" =
      (Except.ok (Resp.evalOut "A" ""),
        ⟨[("A", ⟨"A", alSet (nsMerge make_safer_env d) "y" (Val.vint 456), now⟩)],
          d, true, some false⟩) := by
    rw [handle_message]
    simp +decide [get_or_create_session, cleanup_inactive_sessions, createSession, mkSession,
      evaluate_code, compileExpr, execStmt, evalExpr, alGet, alSet, pyStrip]
  rw [hstep1]
  have hstep2 : handle_message
      ⟨[("A", ⟨"A", alSet (nsMerge make_safer_env d) "y" (Val.vint 456), now⟩)],
        d, true, some false⟩ MessageType.REPL_EVAL
      ⟨some (Code.expr (Expr.name "y")), none, some "A"⟩ now "F" =
      (Except.ok (Resp.evalOut "A" "456"),
        ⟨[("A", ⟨"A", alSet (nsMerge make_safer_env d) "y" (Val.vint 456), now⟩)],
          d, true, some false⟩) := by
    rw [handle_message]
    simp only [alGet_alSet_same, get_or_create_session, cleanup_inactive_sessions,
      createSession, mkSession, evaluate_code, compileExpr, evalExpr]
    simp +decide [alGet, alSet, Nat.sub_self, SESSION_TIMEOUT, pyRepr, pyStrip, evaluate_code,
      compileExpr, evalExpr, alGet_alSet_same, isNoneV, renderInt, natDec, natDecAux,
      digitChar, isPyWs]
  rw [hstep2]
  refine ⟨rfl, by decide, ?_, by decide⟩
  rw [handle_message]
  simp only [alGet_alSet_same, get_or_create_session, cleanup_inactive_sessions,
    createSession, mkSession, evaluate_code, compileExpr, evalExpr]
  simp +decide [alGet, alSet, Nat.sub_self, SESSION_TIMEOUT, hy, evaluate_code, compileExpr,
    evalExpr, isNoneV]

/-- C3 witness: empty default namespace at time zero. -/
theorem session_statefulness_witness :
    (handle_message
      (handle_message ⟨[], [], true, some false⟩ MessageType.REPL_EVAL
        ⟨some (Code.assign "y" (Expr.lit 456)), none, some "A"⟩ 0 "F").2
      MessageType.REPL_EVAL ⟨some (Code.expr (Expr.name "y")), none, some "A"⟩
      0 "F").1 = Except.ok (Resp.evalOut "A" "456") ∧
    strContains (pyStrip (tracebackOf (PyErr.nameErr "y"))) "456" = false :=
  ⟨(session_statefulness [] 0 (by rfl)).1, (session_statefulness [] 0 (by rfl)).2.2.2⟩

end Qtile
